import Mathlib

/-!
Verification development for the assistant-agent-mvp backend.

The Python sources (app/agent.py, app/memory.py, app/tools.py, app/llm.py,
app/proactive.py, app/main.py, scripts/discord_reply_sender.py) are embedded
shallowly:

  * strings are `List Char` (named `Str`);
  * timestamps are `Int` epoch seconds (ISO strings in the source; the model
    fixes the local timezone to UTC, so a calendar date is `ts.fdiv 86400`);
  * `uuid.uuid4()` is modelled by a fresh counter carried in the store;
  * the session dictionaries of `InMemorySessionStore` are total functions
    from session id to lists, defaulting to `[]` exactly like `dict.get`;
  * `datetime.now(...)` is an explicit `now : Int` parameter threaded to every
    operation that reads the clock;
  * a raised `ValueError` (the only reachable exception in the router) is an
    `Except.error`; the store returned alongside it is the store at the moment
    of the raise (no mutation precedes the raise in the source).
-/

namespace AgentMVP

abbrev Str := List Char

def strL (s : String) : Str := s.toList

/-- The apostrophe character, built numerically. -/
def apos : Char := Char.ofNat 39

/-- Python's notion of whitespace for `str.strip` and `\s` (ASCII fragment). -/
def pyWs (c : Char) : Bool :=
  c == ' ' || c == '\t' || c == '\n' || c == '\r' || c == '\x0b' || c == '\x0c'

/-- Python `str.strip()`. -/
def pyStrip (l : Str) : Str :=
  ((l.dropWhile pyWs).reverse.dropWhile pyWs).reverse

/-- One character of `re.sub(r"\s+", " ", ·)`: whitespace becomes a space. -/
def ws2sp (c : Char) : Char := if pyWs c then ' ' else c

/-- Collapse adjacent spaces (second half of `re.sub(r"\s+", " ", ·)`). -/
def squeeze : Str → Str
  | [] => []
  | [c] => [c]
  | a :: b :: rest =>
    if a == ' ' && b == ' ' then squeeze (b :: rest) else a :: squeeze (b :: rest)

/-- agent.py line 8-10: `msg = text.strip()`;
`msg_norm = re.sub(r"\s+", " ", msg)`. -/
def pyNorm (l : Str) : Str := squeeze ((pyStrip l).map ws2sp)

/-- `startsW p s` is Python `s.startswith(p)` (arguments: pattern first). -/
def startsW : Str → Str → Bool
  | [], _ => true
  | _ :: _, [] => false
  | p :: ps, c :: cs => p == c && startsW ps cs

/-- Python substring containment `needle in hay`. -/
def containsSub (needle : Str) : Str → Bool
  | [] => needle.isEmpty
  | c :: rest => startsW needle (c :: rest) || containsSub needle rest

/-- Split at every space character, Python `s.split(" ")` (keeps empties). -/
def splitSp : Str → List Str
  | [] => [[]]
  | c :: rest =>
    if c == ' ' then [] :: splitSp rest
    else
      match splitSp rest with
      | [] => [[c]]
      | t :: ts => (c :: t) :: ts

/-- Split at every whitespace character (keeps empties). -/
def splitWsChar : Str → List Str
  | [] => [[]]
  | c :: rest =>
    if pyWs c then [] :: splitWsChar rest
    else
      match splitWsChar rest with
      | [] => [[c]]
      | t :: ts => (c :: t) :: ts

/-- Python no-argument `str.split()`: whitespace runs, empties dropped. -/
def pySplitWs (l : Str) : List Str := (splitWsChar l).filter (fun t => !t.isEmpty)

/-- Join tokens with single spaces. -/
def joinSp : List Str → Str
  | [] => []
  | [t] => t
  | t :: ts => t ++ ' ' :: joinSp ts

/-- Remainder after the first space, if any. -/
def splitFirstSp : Str → Option Str
  | [] => none
  | c :: rest => if c == ' ' then some rest else splitFirstSp rest

/-- Python `text.split(" ", n)[-1]`: last piece after at most `n` splits. -/
def dropAfterSp : Nat → Str → Str
  | 0, l => l
  | n + 1, l =>
    match splitFirstSp l with
    | none => l
    | some r => dropAfterSp n r

/-- Python `s.strip(chars)`. -/
def stripSet (chars : Str) (l : Str) : Str :=
  ((l.dropWhile (fun c => chars.contains c)).reverse.dropWhile
    (fun c => chars.contains c)).reverse

/-- Python `text.split(needle, 1)[-1]` for a nonempty needle: the remainder
after the first occurrence of `needle`, or the whole text when absent. -/
def dropThroughLit (needle : Str) : Str → Option Str
  | [] => none
  | c :: rest =>
    if startsW needle (c :: rest) then some ((c :: rest).drop needle.length)
    else dropThroughLit needle rest

/-- Split a token at its first `=` (Python `p.split("=", 1)` when `=` occurs). -/
def splitFirstEq : Str → Option (Str × Str)
  | [] => none
  | c :: rest =>
    if c == '=' then some ([], rest)
    else (splitFirstEq rest).map (fun p => (c :: p.1, p.2))

/-- Case-insensitive string equality (re.IGNORECASE full-token comparison). -/
def lowEq (a b : Str) : Bool := a.map Char.toLower == b.map Char.toLower

/-- Value of a nonempty run of decimal digits. -/
def digitsVal : Str → Option Nat
  | [] => none
  | l =>
    if l.all Char.isDigit then
      some (l.foldl (fun a c => a * 10 + (c.toNat - 48)) 0)
    else none

/-- Parser for exactly the regex group `[+-]?\d+` (agent.py line 22/25: the
token captured by the reminder regex, converted with `int`). -/
def parseSN : Str → Option Int
  | [] => none
  | '+' :: rest => (digitsVal rest).map Int.ofNat
  | '-' :: rest => (digitsVal rest).map (fun v => -(v : Int))
  | l => (digitsVal l).map Int.ofNat

/-- Digit runs with Python's single-underscore separators: `\d+(_\d+)*`. -/
def pyDigitRun (acc : Nat) : Str → Option Nat
  | [] => some acc
  | ['_'] => none
  | '_' :: d :: rest =>
    if d.isDigit then pyDigitRun (acc * 10 + (d.toNat - 48)) rest else none
  | d :: rest =>
    if d.isDigit then pyDigitRun (acc * 10 + (d.toNat - 48)) rest else none

/-- Python `int(s)` on a string: surrounding whitespace allowed, one optional
sign, then digits with optional underscore group separators; anything else
raises `ValueError` (here: `none`). -/
def pyInt : Str → Option Int := fun s =>
  match pyStrip s with
  | [] => none
  | '+' :: rest =>
    match rest with
    | [] => none
    | d :: tl => if d.isDigit then (pyDigitRun (d.toNat - 48) tl).map Int.ofNat else none
  | '-' :: rest =>
    match rest with
    | [] => none
    | d :: tl =>
      if d.isDigit then (pyDigitRun (d.toNat - 48) tl).map (fun v => -(v : Int)) else none
  | d :: tl => if d.isDigit then (pyDigitRun (d.toNat - 48) tl).map Int.ofNat else none

def natStr (n : Nat) : Str := (Nat.repr n).toList

def intStr (i : Int) : Str := (Int.repr i).toList

/-- Model of `str(uuid.uuid4())`: decimal rendering of the fresh counter. -/
def freshId (n : Nat) : Str := natStr n

/-- Local calendar date of an epoch-second timestamp (timezone fixed to UTC). -/
def dayOf (ts : Int) : Int := ts.fdiv 86400

/-- Python `l[-n:]` for `n ≥ 1`. -/
def takeLast (n : Nat) (l : List α) : List α := l.drop (l.length - n)

/-- Point update of a total function, modelling `dict.__setitem__`. -/
def updF (f : String → α) (k : String) (v : α) : String → α :=
  fun x => if x = k then v else f x

/-! ## Data model (app/memory.py dataclasses) -/

inductive Role where
  | user
  | assistant
deriving DecidableEq

structure Message where
  role : Role
  content : Str
  ts : Int
deriving DecidableEq

structure Task where
  id : Str
  title : Str
  completed : Bool
  ts : Int
deriving DecidableEq

structure Reminder where
  id : Str
  text : Str
  due_ts : Int
  completed : Bool
  ts : Int
deriving DecidableEq

structure CheckIn where
  id : Str
  mood : Str
  energy : Int
  focus : Int
  note : Str
  ts : Int
deriving DecidableEq

structure OutboundMessage where
  id : Str
  text : Str
  reason : Str
  ts : Int
  delivered : Bool
  attempts : Nat
deriving DecidableEq

structure InboundMessage where
  id : Str
  source : Str
  author : Str
  text : Str
  ts : Int
deriving DecidableEq

/-- The `InMemorySessionStore` state (app/memory.py lines 84-95).  The raw
payload dict of `InboundMessage` is opaque in the source and omitted; the
`_bindings` map is kept.  `fresh` models the `uuid.uuid4()` generator. -/
structure Store where
  sessions : String → List Message
  tasks : String → List Task
  reminders : String → List Reminder
  checkins : String → List CheckIn
  outbox : String → List OutboundMessage
  inbox : String → List InboundMessage
  bindings : String → Option Str
  lastActivity : String → Option Int
  fresh : Nat

def emptyStore : Store :=
  ⟨fun _ => [], fun _ => [], fun _ => [], fun _ => [], fun _ => [],
   fun _ => [], fun _ => none, fun _ => none, 0⟩

/-! ## Store operations (app/memory.py methods) -/

/-- memory.py `get_history` (lines 98-101): `msgs[-limit:]`. -/
def get_history (st : Store) (sid : String) (limit : Nat) : List Message :=
  takeLast limit (st.sessions sid)

/-- memory.py `append` (lines 103-107). -/
def appendMsg (st : Store) (sid : String) (role : Role) (content : Str)
    (now : Int) : Store :=
  { st with sessions := updF st.sessions sid (st.sessions sid ++ [⟨role, content, now⟩]) }

/-- memory.py `add_task` (lines 124-133): fresh id, stripped title,
`completed=False`. -/
def add_task (st : Store) (sid : String) (title : Str) (now : Int) : Task × Store :=
  let t : Task := ⟨freshId st.fresh, pyStrip title, false, now⟩
  (t, { st with tasks := updF st.tasks sid (st.tasks sid ++ [t]), fresh := st.fresh + 1 })

/-- memory.py `list_tasks` (lines 135-137). -/
def list_tasks (st : Store) (sid : String) : List Task := st.tasks sid

/-- memory.py `complete_task` loop body (lines 139-145): mark the first task
with the given id and stop. -/
def completeFirstTask : List Task → Str → Bool × List Task
  | [], _ => (false, [])
  | t :: rest, tid =>
    if t.id == tid then (true, { t with completed := true } :: rest)
    else
      let r := completeFirstTask rest tid
      (r.1, t :: r.2)

/-- memory.py `complete_task` (lines 139-145). -/
def complete_task (st : Store) (sid : String) (tid : Str) : Bool × Store :=
  let r := completeFirstTask (st.tasks sid) tid
  (r.1, { st with tasks := updF st.tasks sid r.2 })

/-- memory.py `add_reminder` (lines 148-160): default horizon 60 minutes when
no due timestamp is supplied; text is stripped. -/
def add_reminder (st : Store) (sid : String) (text : Str) (due_ts : Option Int)
    (now : Int) : Reminder × Store :=
  let due := due_ts.getD (now + 3600)
  let r : Reminder := ⟨freshId st.fresh, pyStrip text, due, false, now⟩
  (r, { st with
        reminders := updF st.reminders sid (st.reminders sid ++ [r])
        fresh := st.fresh + 1 })

/-- memory.py `list_reminders` (lines 162-164). -/
def list_reminders (st : Store) (sid : String) : List Reminder := st.reminders sid

/-- memory.py `complete_reminder` loop body (lines 166-172). -/
def completeFirstReminder : List Reminder → Str → Bool × List Reminder
  | [], _ => (false, [])
  | r :: rest, rid =>
    if r.id == rid then (true, { r with completed := true } :: rest)
    else
      let q := completeFirstReminder rest rid
      (q.1, r :: q.2)

/-- memory.py `complete_reminder` (lines 166-172). -/
def complete_reminder (st : Store) (sid : String) (rid : Str) : Bool × Store :=
  let q := completeFirstReminder (st.reminders sid) rid
  (q.1, { st with reminders := updF st.reminders sid q.2 })

/-- memory.py `add_checkin` (lines 175-186). -/
def add_checkin (st : Store) (sid : String) (mood : Str) (energy focus : Int)
    (note : Str) (now : Int) : CheckIn × Store :=
  let c : CheckIn := ⟨freshId st.fresh, mood, energy, focus, note, now⟩
  (c, { st with
        checkins := updF st.checkins sid (st.checkins sid ++ [c])
        fresh := st.fresh + 1 })

/-- memory.py `list_checkins` (lines 188-191): `lst[-limit:]`. -/
def list_checkins (st : Store) (sid : String) (limit : Nat) : List CheckIn :=
  takeLast limit (st.checkins sid)

/-- memory.py `add_outbox` (lines 194-205): `delivered=False`, `attempts=0`. -/
def add_outbox (st : Store) (sid : String) (text reason : Str) (now : Int) :
    OutboundMessage × Store :=
  let m : OutboundMessage := ⟨freshId st.fresh, text, reason, now, false, 0⟩
  (m, { st with
        outbox := updF st.outbox sid (st.outbox sid ++ [m])
        fresh := st.fresh + 1 })

/-- memory.py `list_outbox` (lines 207-210): `lst[-limit:]`. -/
def list_outbox (st : Store) (sid : String) (limit : Nat) : List OutboundMessage :=
  takeLast limit (st.outbox sid)

/-- memory.py `mark_delivered` loop body (lines 212-220): set `delivered` on
the first entry with the given id, leaving `attempts` untouched; stop there. -/
def markFirstDelivered : List OutboundMessage → Str → Bool × List OutboundMessage
  | [], _ => (false, [])
  | m :: rest, mid =>
    if m.id == mid then (true, { m with delivered := true } :: rest)
    else
      let r := markFirstDelivered rest mid
      (r.1, m :: r.2)

/-- memory.py `mark_delivered` (lines 212-220). -/
def mark_delivered (st : Store) (sid : String) (mid : Str) : Bool × Store :=
  let r := markFirstDelivered (st.outbox sid) mid
  (r.1, { st with outbox := updF st.outbox sid r.2 })

/-- memory.py `increment_outbox_attempt` loop body (lines 222-233). -/
def incFirstAttempt : List OutboundMessage → Str → Int × List OutboundMessage
  | [], _ => (-1, [])
  | m :: rest, mid =>
    if m.id == mid then ((m.attempts + 1 : Nat), { m with attempts := m.attempts + 1 } :: rest)
    else
      let r := incFirstAttempt rest mid
      (r.1, m :: r.2)

/-- memory.py `increment_outbox_attempt` (lines 222-233): returns the new
count, or `-1` when the id is unknown. -/
def increment_outbox_attempt (st : Store) (sid : String) (mid : Str) : Int × Store :=
  let r := incFirstAttempt (st.outbox sid) mid
  (r.1, { st with outbox := updF st.outbox sid r.2 })

/-- memory.py `add_inbound` (lines 236-262): the record id is the external
`inbound_id` when that is a truthy (nonempty) string, else a fresh uuid; the
text is stripped and the last-activity timestamp is updated. -/
def add_inbound (st : Store) (sid : String) (author text source : Str)
    (inbound_id : Option Str) (now : Int) : InboundMessage × Store :=
  let useGiven := match inbound_id with
    | some i => !i.isEmpty
    | none => false
  let id := if useGiven then inbound_id.getD [] else freshId st.fresh
  let m : InboundMessage := ⟨id, source, author, pyStrip text, now⟩
  (m, { st with
        inbox := updF st.inbox sid (st.inbox sid ++ [m])
        lastActivity := updF st.lastActivity sid (some now)
        fresh := if useGiven then st.fresh else st.fresh + 1 })

/-- memory.py `list_inbound` (lines 264-268). -/
def list_inbound (st : Store) (sid : String) (limit : Nat) : List InboundMessage :=
  takeLast limit (st.inbox sid)

/-- memory.py `has_inbound_id` (lines 270-276). -/
def has_inbound_id (st : Store) (sid : String) (iid : Str) : Bool :=
  (st.inbox sid).any (fun m => m.id == iid)

/-! ## Tool layer (app/tools.py) -/

/-- tools.py `add_task_tool` (lines 5-10): a falsy (empty) title is rejected. -/
def add_task_tool (sid : String) (title : Str) (st : Store) (now : Int) : Bool × Store :=
  if title.isEmpty then (false, st)
  else (true, (add_task st sid title now).2)

/-- tools.py `complete_task_tool` (lines 16-21). -/
def complete_task_tool (sid : String) (tid : Str) (st : Store) : Bool × Store :=
  if tid.isEmpty then (false, st) else complete_task st sid tid

/-- tools.py `add_reminder_tool` (lines 24-39): empty text is rejected; with
minutes supplied the due timestamp is now plus that many minutes (the `int`
re-conversion cannot fail on the integer the router passes). -/
def add_reminder_tool (sid : String) (text : Str) (minutes : Option Int)
    (st : Store) (now : Int) : Bool × Store :=
  if text.isEmpty then (false, st)
  else
    let due : Option Int := minutes.map (fun m => now + 60 * m)
    (true, (add_reminder st sid text due now).2)

/-- tools.py `complete_reminder_tool` (lines 47-52). -/
def complete_reminder_tool (sid : String) (rid : Str) (st : Store) : Bool × Store :=
  if rid.isEmpty then (false, st) else complete_reminder st sid rid

/-- tools.py `check_in_tool` (lines 55-61): always succeeds. -/
def check_in_tool (sid : String) (mood : Str) (energy focus : Int) (note : Str)
    (st : Store) (now : Int) : Bool × Store :=
  (true, (add_checkin st sid mood energy focus note now).2)

structure TodaySummary where
  open_tasks : Nat
  open_reminders : Nat
  last_checkin : Option CheckIn
deriving DecidableEq

/-- tools.py `today_summary_tool` (lines 64-71). -/
def today_summary_tool (sid : String) (st : Store) : TodaySummary :=
  ⟨((list_tasks st sid).filter (fun t => !t.completed)).length,
   ((list_reminders st sid).filter (fun r => !r.completed)).length,
   (list_checkins st sid 1).getLast?⟩

/-! ## Generative-reply collaborator (app/llm.py) -/

def mockEmptyReply : Str := strL "Say something and I" ++ [apos] ++ strL "ll respond."

/-- llm.py `_generate_mock` (lines 164-182); `generate_reply` (lines 19-49)
resolves to the mock when no provider key is configured, and the provider
branches are external collaborators outside this core. -/
def generate_reply (user_message : Str) (sid : String) (history : List Message) : Str :=
  let text := pyStrip user_message
  if text.isEmpty then mockEmptyReply
  else
    let lastUser := ((history.filter (fun m => m.role == Role.user)).getLast?).map
      (fun m => m.content)
    match lastUser with
    | some lu =>
      if !lu.isEmpty && !(lu == text) then
        strL "[MOCK LLM] (session=" ++ sid.toList ++ strL ") Earlier you said: " ++
          [apos] ++ lu ++ [apos] ++ strL ". Now you said: " ++ [apos] ++ text ++
          [apos] ++ strL "."
      else strL "[MOCK LLM] (session=" ++ sid.toList ++ strL ") Replying to: " ++ text
    | none => strL "[MOCK LLM] (session=" ++ sid.toList ++ strL ") Replying to: " ++ text

/-! ## Intent router (app/agent.py) -/

/-- The only exception reachable in the router: `ValueError` from `int` on a
malformed check-in numeric field (agent.py lines 65-66). -/
inductive RErr where
  | valueError
deriving DecidableEq

/-- agent.py line 88: `re.match(r"^\s*complete\s+(\S+)\s*$", text, re.IGNORECASE)`
on the raw text: optional surrounding whitespace, the word complete
(case-insensitively), a whitespace run, one non-whitespace token. -/
def matchCompleteRaw (text : Str) : Option Str :=
  let t := pyStrip text
  if lowEq (t.take 8) (strL "complete") then
    match t.drop 8 with
    | [] => none
    | c :: rest =>
      if pyWs c then
        let tok := (c :: rest).dropWhile pyWs
        if !tok.isEmpty && tok.all (fun d => !pyWs d) then some tok else none
      else none
  else none

/-- agent.py line 47: `re.match(r"^\s*complete\s+reminder\s+(\S+)\s*$", msg_norm,
re.IGNORECASE)`.  On the whitespace-normalized `msg_norm` this is exactly three
space-separated tokens, the first two complete / reminder case-insensitively. -/
def matchCompleteReminder (msgNorm : Str) : Option Str :=
  match splitSp msgNorm with
  | [a, b, c] =>
    if lowEq a (strL "complete") && lowEq b (strL "reminder") && !c.isEmpty
    then some c else none
  | _ => none

/-- agent.py line 22 regex on `msg_norm`:
`^\s*remind\s+me\s+in\s+([+-]?\d+)\s+minutes?\s+to\s+(.+?)\s*$` (IGNORECASE).
On the normalized string: tokens remind, me, in, a signed-integer token,
minute(s), to, then a nonempty remainder rejoined with single spaces. -/
def matchTimed (msgNorm : Str) : Option (Str × Str) :=
  match splitSp msgNorm with
  | a :: b :: c :: n :: m :: t :: rest =>
    if lowEq a (strL "remind") && lowEq b (strL "me") && lowEq c (strL "in") &&
       (parseSN n).isSome &&
       (lowEq m (strL "minute") || lowEq m (strL "minutes")) &&
       lowEq t (strL "to") && !rest.isEmpty
    then some (n, joinSp rest) else none
  | _ => none

/-- agent.py line 33 regex: `^\s*remind\s+me\s+to\s+(.+?)\s*$` (IGNORECASE). -/
def matchUntimed (msgNorm : Str) : Option Str :=
  match splitSp msgNorm with
  | a :: b :: c :: rest =>
    if lowEq a (strL "remind") && lowEq b (strL "me") && lowEq c (strL "to") &&
       !rest.isEmpty
    then some (joinSp rest) else none
  | _ => none

/-- agent.py lines 57-63: remainder of the raw text after the literal
check in, stripped of spaces and colons, whitespace-split; tokens containing
an equals sign become key/value pairs (keys stripped and lowercased). -/
def checkinKv (text : Str) : List (Str × Str) :=
  let rest := (dropThroughLit (strL "check in") text).getD text
  let parts := pySplitWs (stripSet (strL " :") rest)
  parts.filterMap (fun p => (splitFirstEq p).map
    (fun q => ((pyStrip q.1).map Char.toLower, pyStrip q.2)))

/-- Python dict lookup over the pairs of `checkinKv`: the last binding wins. -/
def kvGet (kv : List (Str × Str)) (key : Str) : Option Str :=
  ((kv.filter (fun p => p.1 == key)).map Prod.snd).getLast?

def joinNl : List Str → Str
  | [] => []
  | [x] => x
  | x :: xs => x ++ '\n' :: joinNl xs

/-- agent.py line 84 task line format. -/
def taskLine (t : Task) : Str :=
  t.id ++ strL " | " ++ (if t.completed then strL "✓" else strL "•") ++
    strL " " ++ t.title

/-- agent.py line 44 reminder line format. -/
def reminderLine (r : Reminder) : Str :=
  r.id ++ strL " | " ++ (if r.completed then strL "✓" else strL "•") ++
    strL " " ++ r.text ++ strL " (due " ++ intStr r.due_ts ++ strL ")"

/-- agent.py lines 96-100: FALLBACK to the generative reply over the last 12
history messages. -/
def hmFallback (text _msgNorm : Str) (sid : String) (st : Store) (_now : Int) :
    Except RErr Str × Store :=
  (.ok (generate_reply text sid (get_history st sid 12)), st)

/-- agent.py lines 87-94: COMPLETE TASK, skipped when the matched token is the
word reminder (case-insensitively, line 92), falling through to the fallback. -/
def hmCompleteTask (text msgNorm : Str) (sid : String) (st : Store) (now : Int) :
    Except RErr Str × Store :=
  match matchCompleteRaw text with
  | some tok =>
    if !(lowEq tok (strL "reminder")) then
      let r := complete_task_tool sid tok st
      (.ok (if r.1 then strL "Task completed." else strL "Task not found."), r.2)
    else hmFallback text msgNorm sid st now
  | none => hmFallback text msgNorm sid st now

/-- agent.py lines 78-85: LIST TASKS. -/
def hmListTasks (text msgNorm : Str) (sid : String) (st : Store) (now : Int) :
    Except RErr Str × Store :=
  let lower := msgNorm.map Char.toLower
  if containsSub (strL "list tasks") lower || containsSub (strL "my tasks") lower then
    let ts := list_tasks st sid
    if ts.isEmpty then (.ok (strL "You have no tasks."), st)
    else (.ok (joinNl (ts.map taskLine)), st)
  else hmCompleteTask text msgNorm sid st now

def dashTriggers : List Str :=
  [strL "today", strL "dashboard",
   strL "what" ++ [apos] ++ strL "s my plan", strL "whats my plan"]

/-- agent.py lines 71-76: DASHBOARD / TODAY. -/
def hmDashboard (text msgNorm : Str) (sid : String) (st : Store) (now : Int) :
    Except RErr Str × Store :=
  let lower := msgNorm.map Char.toLower
  if dashTriggers.any (fun s => s == lower) then
    let summ := today_summary_tool sid st
    let lastS := match summ.last_checkin with
      | some c => strL "last check-in mood=" ++ c.mood ++ strL " energy=" ++ intStr c.energy
      | none => strL "no recent check-in"
    (.ok (strL "Open tasks: " ++ natStr summ.open_tasks ++
          strL " | Open reminders: " ++ natStr summ.open_reminders ++
          strL " | " ++ lastS), st)
  else hmListTasks text msgNorm sid st now

/-- agent.py lines 53-69: CHECK-IN.  The `int` conversions on the energy and
focus values (lines 65-66) are unguarded in the source and raise `ValueError`
on malformed input; no store mutation precedes the raise. -/
def hmCheckIn (text msgNorm : Str) (sid : String) (st : Store) (now : Int) :
    Except RErr Str × Store :=
  let lower := msgNorm.map Char.toLower
  if startsW (strL "check in") lower then
    let kv := checkinKv text
    let mood := (kvGet kv (strL "mood")).getD (strL "ok")
    let energyR : Option Int := match kvGet kv (strL "energy") with
      | some s => pyInt s
      | none => some 5
    match energyR with
    | none => (.error .valueError, st)
    | some energy =>
      let focusR : Option Int := match kvGet kv (strL "focus") with
        | some s => pyInt s
        | none => some 5
      match focusR with
      | none => (.error .valueError, st)
      | some focus =>
        let note := (kvGet kv (strL "note")).getD []
        let r := check_in_tool sid mood energy focus note st now
        (.ok (if r.1 then strL "Check-in recorded." else strL "Failed to record check-in."), r.2)
  else hmDashboard text msgNorm sid st now

/-- agent.py lines 46-51: COMPLETE REMINDER (explicit). -/
def hmCompleteReminder (text msgNorm : Str) (sid : String) (st : Store) (now : Int) :
    Except RErr Str × Store :=
  match matchCompleteReminder msgNorm with
  | some rid =>
    let r := complete_reminder_tool sid rid st
    (.ok (if r.1 then strL "Reminder completed." else strL "Reminder not found."), r.2)
  | none => hmCheckIn text msgNorm sid st now

/-- agent.py lines 39-44: LIST REMINDERS. -/
def hmListReminders (text msgNorm : Str) (sid : String) (st : Store) (now : Int) :
    Except RErr Str × Store :=
  let lower := msgNorm.map Char.toLower
  if containsSub (strL "list reminders") lower || containsSub (strL "my reminders") lower then
    let rs := list_reminders st sid
    if rs.isEmpty then (.ok (strL "You have no reminders."), st)
    else (.ok (joinNl (rs.map reminderLine)), st)
  else hmCompleteReminder text msgNorm sid st now

/-- agent.py lines 32-37: the untimed sub-pattern of the REMINDERS branch;
when it fails too, control falls out of the branch into LIST REMINDERS. -/
def hmRemindUntimed (text msgNorm : Str) (sid : String) (st : Store) (now : Int) :
    Except RErr Str × Store :=
  match matchUntimed msgNorm with
  | some after =>
    let ta := stripSet (strL " .!?") after
    let r := add_reminder_tool sid ta none st now
    (.ok (strL "Reminder set: " ++ ta), r.2)
  | none => hmListReminders text msgNorm sid st now

/-- agent.py lines 19-37: REMINDERS.  The timed sub-pattern is tried first;
its `int` conversion sits in a try/except whose failure (unreachable, since the
matched token is exactly a signed digit run) falls through to the untimed
sub-pattern, mirrored here by the `none` arm. -/
def hmRemind (text msgNorm : Str) (sid : String) (st : Store) (now : Int) :
    Except RErr Str × Store :=
  let lower := msgNorm.map Char.toLower
  if startsW (strL "remind me") lower then
    match matchTimed msgNorm with
    | some (ntok, after) =>
      match parseSN ntok with
      | some minutes =>
        let ta := stripSet (strL " .!?") after
        let r := add_reminder_tool sid ta (some minutes) st now
        (.ok (strL "Reminder set in " ++ intStr minutes ++ strL " minutes: " ++ ta), r.2)
      | none => hmRemindUntimed text msgNorm sid st now
    | none => hmRemindUntimed text msgNorm sid st now
  else hmListReminders text msgNorm sid st now

/-- agent.py lines 13-17: ADD TASK.  The title comes from the raw `text` via
`text.split(" ", 2)[-1]` (resp. `(" ", 1)`), and the reply always echoes it,
whether or not the tool accepted it. -/
def hmAddTask (text msgNorm : Str) (sid : String) (st : Store) (now : Int) :
    Except RErr Str × Store :=
  let lower := msgNorm.map Char.toLower
  if startsW (strL "add task") lower || startsW (strL "todo") lower ||
     startsW (strL "remember to") lower then
    let title := if startsW (strL "add task") lower then dropAfterSp 2 text
                 else dropAfterSp 1 text
    let r := add_task_tool sid title st now
    (.ok (strL "Task added: " ++ title), r.2)
  else hmRemind text msgNorm sid st now

/-- agent.py `handle_message` (lines 7-100): the ordered rule chain
ADD TASK → REMINDERS → LIST REMINDERS → COMPLETE REMINDER → CHECK-IN →
DASHBOARD → LIST TASKS → COMPLETE TASK → FALLBACK, over the raw text and its
whitespace-normalized form. -/
def handle_message (text : Str) (sid : String) (st : Store) (now : Int) :
    Except RErr Str × Store :=
  hmAddTask text (pyNorm text) sid st now

/-- agent.py `handle_inbound` (lines 103-109): delegates to `handle_message`,
ignoring the source tag. -/
def handle_inbound (text : Str) (sid : String) (_source : Str) (st : Store)
    (now : Int) : Except RErr Str × Store :=
  handle_message text sid st now

/-! ## HTTP-facing orchestration (app/main.py) and the delivery poller -/

structure IngestResp where
  ok : Bool
  deduped : Bool
  queued_reply : Bool
  reply_text : Option Str
deriving DecidableEq

/-- main.py `discord_ingest` (lines 164-210).  A ValueError escaping
`handle_message` propagates to the HTTP layer; the store keeps the mutations
made before that call, exactly as in the source. -/
def discord_ingest (sid : String) (message_id author content : Str) (st : Store)
    (now : Int) : Except RErr IngestResp × Store :=
  if has_inbound_id st sid message_id then
    (.ok ⟨true, true, false, none⟩, st)
  else
    let st1 := (add_inbound st sid author content (strL "discord") (some message_id) now).2
    let st2 := appendMsg st1 sid .user content now
    match handle_message content sid st2 now with
    | (.error e, st3) => (.error e, st3)
    | (.ok reply, st3) =>
      let st4 := appendMsg st3 sid .assistant reply now
      if !(pyStrip reply).isEmpty then
        (.ok ⟨true, false, true, some reply⟩,
         (add_outbox st4 sid reply (strL "discord_reply") now).2)
      else (.ok ⟨true, false, false, none⟩, st4)

def checkinPromptStr : Str := strL "Quick check-in: mood? energy (1-10)? focus (1-10)?"

/-- proactive.py `proactive_prompt` (lines 13-128).  Timestamps always parse in
the model and the duck-typed dict/attr access resolves to record fields; the
local timezone is UTC, so the calendar date of a timestamp is `dayOf`. -/
def proactive_prompt (sid : String) (st : Store) (now : Int) : Option Str :=
  let checkins := list_checkins st sid 7
  let hasToday := checkins.any (fun c => dayOf c.ts == dayOf now)
  if !hasToday then some checkinPromptStr
  else
    let overdueCount := ((list_reminders st sid).filter
      (fun r => decide (r.due_ts < now) && !r.completed)).length
    if overdueCount > 0 then
      some (strL "You have " ++ natStr overdueCount ++
            strL " overdue reminders. Want to review them?")
    else
      let openTasks := ((list_tasks st sid).filter (fun t => !t.completed)).length
      if openTasks ≥ 3 then
        some (strL "You have " ++ natStr openTasks ++
              strL " open tasks. Want to pick one to focus on?")
      else none

structure TickResp where
  queued : Bool
  message : Option Str
deriving DecidableEq

/-- main.py `proactive_tick` (lines 78-102): run the evaluator once; suppress
when the most recent outbox entry has identical text less than 3600 seconds
old, else enqueue the message with reason proactive_tick. -/
def proactive_tick (sid : String) (st : Store) (now : Int) : TickResp × Store :=
  match proactive_prompt sid st now with
  | none => (⟨false, none⟩, st)
  | some msg =>
    match (list_outbox st sid 1).getLast? with
    | some last =>
      if last.text == msg && decide (now - last.ts < 3600) then (⟨false, none⟩, st)
      else (⟨true, some msg⟩, (add_outbox st sid msg (strL "proactive_tick") now).2)
    | none => (⟨true, some msg⟩, (add_outbox st sid msg (strL "proactive_tick") now).2)

/-- main.py `get_outbox` (lines 105-108): the last 20 outbox entries. -/
def get_outbox (st : Store) (sid : String) : List OutboundMessage :=
  list_outbox st sid 20

/-- scripts/discord_reply_sender.py line 105: the sender polls `get_outbox`
and keeps the entries with delivered=false — the list-undelivered pipeline. -/
def list_undelivered (st : Store) (sid : String) : List OutboundMessage :=
  (get_outbox st sid).filter (fun m => !m.delivered)

/-! ## Measurement helpers used by theorem statements -/

/-- Number of InboundRecords of a session carrying a given external id. -/
def countInbound (st : Store) (sid : String) (mid : Str) : Nat :=
  ((st.inbox sid).filter (fun m => m.id == mid)).length

/-- A token in the sense of the regexes: one nonempty whitespace-free word. -/
def isTokenB (l : Str) : Bool := !l.isEmpty && l.all (fun c => !pyWs c)

/-- Abbreviation for replacing one session's outbox list. -/
def setOutbox (st : Store) (sid : String) (l : List OutboundMessage) : Store :=
  { st with outbox := updF st.outbox sid l }

/-- No two adjacent space characters (the strings `squeeze` fixes). -/
def noDoubleSp : Str → Bool
  | [] => true
  | [_] => true
  | a :: b :: rest => !(a == ' ' && b == ' ') && noDoubleSp (b :: rest)

/-! ## Concrete fixtures for witnesses and counterexamples -/

def e1 : OutboundMessage := ⟨strL "a", strL "x", strL "r", 0, false, 2⟩

def e2 : OutboundMessage := ⟨strL "b", strL "y", strL "r", 1, false, 3⟩

def stW7 : Store := { emptyStore with outbox := updF emptyStore.outbox "s" [e1, e2] }

def stW6 : Store :=
  { emptyStore with
    outbox := updF emptyStore.outbox "s"
      [⟨strL "o1", checkinPromptStr, strL "proactive_tick", 0, false, 0⟩] }

def stW5 : Store :=
  { emptyStore with
    reminders := updF emptyStore.reminders "s" [⟨strL "r1", strL "x", -10, false, -10⟩]
    tasks := updF emptyStore.tasks "s"
      [⟨strL "t1", strL "a", false, 0⟩, ⟨strL "t2", strL "b", false, 0⟩,
       ⟨strL "t3", strL "c", false, 0⟩] }

def stW3 : Store :=
  { emptyStore with
    reminders := updF emptyStore.reminders "s" [⟨strL "r1", strL "x", 9, false, 0⟩]
    tasks := updF emptyStore.tasks "s" [⟨strL "t1", strL "a", false, 0⟩] }

def stCE3 : Store :=
  { emptyStore with tasks := updF emptyStore.tasks "s" [⟨strL "REMINDER", strL "a", false, 0⟩] }

def c9entries : List OutboundMessage :=
  (List.range 21).map (fun i => ⟨natStr i, strL "t", strL "r", (i : Int), false, 0⟩)

def c9store : Store := { emptyStore with outbox := updF emptyStore.outbox "s" c9entries }

def e20 : OutboundMessage := ⟨natStr 20, strL "t", strL "r", 20, false, 0⟩

/-! ## General lemmas about the store primitives -/

theorem updF_same (f : String → α) (k : String) (v : α) : updF f k v k = v := by
  simp [updF]

theorem updF_self (f : String → α) (k : String) : updF f k (f k) = f := by
  funext x
  by_cases h : x = k <;> simp [updF, h]

theorem updF_updF (f : String → α) (k : String) (v w : α) :
    updF (updF f k v) k w = updF f k w := by
  funext x
  by_cases h : x = k <;> simp [updF, h]

/-! ## Claim C10 -/

/-- C10: the external-channel entry point `handle_inbound` returns exactly the
reply of `handle_message` and performs exactly the same store effects, for
every text, session id and source tag. -/
theorem C10_handle_inbound_equals_handle_message (text : Str) (sid : String)
    (source : Str) (st : Store) (now : Int) :
    handle_inbound text sid source st now = handle_message text sid st now := rfl

/-! ## Claim C2 -/

/-- C2 (code evidence): on the input check in energy=abc — which begins with
check in and carries a non-integer energy value — the embedded router raises
ValueError (an `Except.error` escaping to the caller) instead of producing a
plain-text reply, for every session, store and clock; the claimed
never-raises property fails at this input. -/
theorem C2_checkin_malformed_energy_raises (sid : String) (st : Store) (now : Int) :
    handle_message (strL "check in energy=abc") sid st now =
      (Except.error RErr.valueError, st) := rfl

/-! ## Claim C7 -/

theorem markFirst_not_found (l : List OutboundMessage) (mid : Str)
    (h : ∀ x ∈ l, x.id ≠ mid) : markFirstDelivered l mid = (false, l) := by
  induction l with
  | nil => rfl
  | cons m rest ih =>
    have hm : ¬(m.id == mid) = true := by
      simp only [beq_iff_eq]
      exact h m (by simp)
    simp [markFirstDelivered, hm, ih (fun x hx => h x (by simp [hx]))]

theorem markFirst_found (pre post : List OutboundMessage) (m : OutboundMessage)
    (mid : Str) (hpre : ∀ x ∈ pre, x.id ≠ mid) (hm : m.id = mid) :
    markFirstDelivered (pre ++ m :: post) mid =
      (true, pre ++ { m with delivered := true } :: post) := by
  induction pre with
  | nil => simp [markFirstDelivered, hm]
  | cons a rest ih =>
    have ha : ¬(a.id == mid) = true := by
      simp only [beq_iff_eq]
      exact hpre a (by simp)
    simp [markFirstDelivered, ha, ih (fun x hx => hpre x (by simp [hx]))]

/-- C7: `mark_delivered` with an unknown entry id returns false and leaves the
whole store unchanged; with a known id it returns true, flips only that
entry's delivered flag (attempts and every other field and entry untouched),
and a second identical call returns true and changes nothing. -/
theorem C7_mark_delivered_frame (st : Store) (sid : String) (mid : Str)
    (pre post : List OutboundMessage) (m : OutboundMessage) :
    ((∀ x ∈ st.outbox sid, x.id ≠ mid) → mark_delivered st sid mid = (false, st)) ∧
    (st.outbox sid = pre ++ m :: post → (∀ x ∈ pre, x.id ≠ mid) → m.id = mid →
      mark_delivered st sid mid =
        (true, setOutbox st sid (pre ++ { m with delivered := true } :: post)) ∧
      mark_delivered
          (setOutbox st sid (pre ++ { m with delivered := true } :: post)) sid mid =
        (true, setOutbox st sid (pre ++ { m with delivered := true } :: post))) := by
  constructor
  · intro h
    unfold mark_delivered
    rw [markFirst_not_found _ _ h]
    simp [updF_self]
  · intro hsplit hpre hm
    constructor
    · unfold mark_delivered setOutbox
      rw [hsplit, markFirst_found _ _ _ _ hpre hm]
    · unfold mark_delivered setOutbox
      rw [show (Store.outbox
            { st with outbox :=
                        updF st.outbox sid
                          (pre ++ { m with delivered := true } :: post) } sid) =
          pre ++ { m with delivered := true } :: post from updF_same _ _ _]
      rw [markFirst_found pre post { m with delivered := true } mid hpre hm]
      simp [updF_updF]

/-- C7 witness: on a concrete two-entry outbox, an unknown id mutates nothing
and a known id is marked delivered idempotently with attempts preserved. -/
theorem C7_mark_delivered_frame_witness :
    mark_delivered stW7 "s" (strL "zz") = (false, stW7) ∧
    mark_delivered stW7 "s" (strL "b") =
      (true, setOutbox stW7 "s" ([e1] ++ { e2 with delivered := true } :: [])) ∧
    mark_delivered
        (setOutbox stW7 "s" ([e1] ++ { e2 with delivered := true } :: [])) "s"
        (strL "b") =
      (true, setOutbox stW7 "s" ([e1] ++ { e2 with delivered := true } :: [])) := by
  have hu := (C7_mark_delivered_frame stW7 "s" (strL "zz") [] [] e1).1 (by decide)
  have hk := (C7_mark_delivered_frame stW7 "s" (strL "b") [e1] [] e2).2
    (by decide) (by decide) (by decide)
  exact ⟨hu, hk.1, hk.2⟩

/-! ## Claim C5 -/

theorem takeLast_subset (n : Nat) (l : List α) : takeLast n l ⊆ l :=
  List.drop_subset _ _

/-- C5: whenever no check-in of the session has todays local calendar date,
the proactive evaluator returns exactly the check-in prompt — whatever
reminders (overdue or not) and open tasks the session also holds; rule 1
strictly dominates rules 2 and 3. -/
theorem C5_proactive_rule1_dominates (sid : String) (st : Store) (now : Int)
    (h : ∀ c ∈ st.checkins sid, dayOf c.ts ≠ dayOf now) :
    proactive_prompt sid st now = some checkinPromptStr := by
  unfold proactive_prompt list_checkins
  have hany : (takeLast 7 (st.checkins sid)).any
      (fun c => dayOf c.ts == dayOf now) = false := by
    rw [List.any_eq_false]
    intro c hc
    simp only [beq_iff_eq]
    exact h c (takeLast_subset 7 _ hc)
  simp [hany]

/-- C5 witness: a session holding one overdue uncompleted reminder and three
open tasks but no check-in today still receives exactly the check-in prompt. -/
theorem C5_proactive_rule1_dominates_witness :
    ((stW5.reminders "s").filter
      (fun r => decide (r.due_ts < (100 : Int)) && !r.completed)).length = 1 ∧
    ((stW5.tasks "s").filter (fun t => !t.completed)).length = 3 ∧
    proactive_prompt "s" stW5 100 = some checkinPromptStr :=
  ⟨by decide, by decide,
   C5_proactive_rule1_dominates "s" stW5 100 (by intro c hc; simp [stW5, emptyStore, updF] at hc)⟩

/-! ## Claim C6 -/

theorem takeLast_one_getLast? (l : List α) :
    (takeLast 1 l).getLast? = l.getLast? := by
  induction l with
  | nil => rfl
  | cons a l ih =>
    cases l with
    | nil => rfl
    | cons b t =>
      have h1 : takeLast 1 (a :: b :: t) = takeLast 1 (b :: t) := by
        simp [takeLast]
      rw [h1, ih, List.getLast?_cons_cons]

/-- C6: when a proactive tick computes a message whose text equals that of the
most recent outbox entry of the session and that entry is strictly less than
3600 seconds old, the tick reports not-queued and leaves the store (hence the
outbox) completely unchanged. -/
theorem C6_nudge_suppressed_within_hour (sid : String) (st : Store) (now : Int)
    (m : Str) (last : OutboundMessage)
    (h1 : proactive_prompt sid st now = some m)
    (h2 : (st.outbox sid).getLast? = some last)
    (h3 : last.text = m)
    (h4 : now - last.ts < 3600) :
    proactive_tick sid st now = (⟨false, none⟩, st) := by
  unfold proactive_tick
  rw [h1]
  have hl : (list_outbox st sid 1).getLast? = some last := by
    unfold list_outbox
    rw [takeLast_one_getLast?, h2]
  rw [hl]
  simp [h3, h4]

/-- C6 witness: with the check-in prompt nudge already enqueued at time 0 and
a tick at time 100, the identical computed nudge is suppressed. -/
theorem C6_nudge_suppressed_within_hour_witness :
    proactive_tick "s" stW6 100 = (⟨false, none⟩, stW6) :=
  C6_nudge_suppressed_within_hour "s" stW6 100 checkinPromptStr
    ⟨strL "o1", checkinPromptStr, strL "proactive_tick", 0, false, 0⟩
    (by rfl) (by rfl) rfl (by decide)

/-! ## Claim C9 -/

/-- C9 counterexample: with 21 undelivered entries in the session outbox, the
list-undelivered pipeline (get_outbox, which truncates to the 20 most recent
entries, filtered by the delivery poller) returns only 20 of the 21
undelivered entries — so it does not return every undelivered OutboxEntry of
the session, contradicting the claim as stated. -/
theorem C9_counterexample :
    (list_undelivered c9store "s").length = 20 ∧
    ((c9store.outbox "s").filter (fun m => !m.delivered)).length = 21 ∧
    e20 ∈ c9store.outbox "s" ∧ e20.delivered = false ∧
    ⟨natStr 0, strL "t", strL "r", 0, false, 0⟩ ∈ c9store.outbox "s" ∧
    (⟨natStr 0, strL "t", strL "r", 0, false, 0⟩ : OutboundMessage) ∉
      list_undelivered c9store "s" := by
  decide

/-- C9 amended: the list-undelivered pipeline returns exactly the undelivered
entries among the 20 most recent OutboxEntries of the session, in chronological
(creation) order: every returned entry is undelivered and belongs to the
session's outbox, the result is a sublist of the outbox (so chronological),
and every undelivered entry among the 20 most recent appears. -/
theorem C9_list_undelivered_amended (st : Store) (sid : String) :
    (∀ e ∈ list_undelivered st sid, e.delivered = false ∧ e ∈ st.outbox sid) ∧
    List.Sublist (list_undelivered st sid) (st.outbox sid) ∧
    (∀ e ∈ takeLast 20 (st.outbox sid), e.delivered = false →
      e ∈ list_undelivered st sid) := by
  refine ⟨?_, ?_, ?_⟩
  · intro e he
    unfold list_undelivered get_outbox list_outbox at he
    have h1 := List.mem_filter.1 he
    refine ⟨by simpa using h1.2, takeLast_subset 20 _ h1.1⟩
  · exact (List.filter_sublist _).trans (List.drop_sublist _ _)
  · intro e he hd
    unfold list_undelivered get_outbox list_outbox
    exact List.mem_filter.2 ⟨he, by simp [hd]⟩

/-- C9 witness: in the 21-entry outbox, the most recent entry is returned by
the pipeline (it is among the 20 most recent and undelivered). -/
theorem C9_list_undelivered_amended_witness :
    e20 ∈ list_undelivered c9store "s" :=
  (C9_list_undelivered_amended c9store "s").2.2 e20 (by decide) (by decide)

/-! ## Router frame lemmas: no branch of the router touches the inbox -/

theorem add_task_tool_inbox (sid : String) (title : Str) (st : Store) (now : Int) :
    ((add_task_tool sid title st now).2).inbox = st.inbox := by
  unfold add_task_tool add_task
  split <;> rfl

theorem complete_task_tool_inbox (sid : String) (tid : Str) (st : Store) :
    ((complete_task_tool sid tid st).2).inbox = st.inbox := by
  unfold complete_task_tool complete_task
  split <;> rfl

theorem add_reminder_tool_inbox (sid : String) (text : Str) (minutes : Option Int)
    (st : Store) (now : Int) :
    ((add_reminder_tool sid text minutes st now).2).inbox = st.inbox := by
  unfold add_reminder_tool add_reminder
  split <;> rfl

theorem complete_reminder_tool_inbox (sid : String) (rid : Str) (st : Store) :
    ((complete_reminder_tool sid rid st).2).inbox = st.inbox := by
  unfold complete_reminder_tool complete_reminder
  split <;> rfl

theorem check_in_tool_inbox (sid : String) (mood : Str) (energy focus : Int)
    (note : Str) (st : Store) (now : Int) :
    ((check_in_tool sid mood energy focus note st now).2).inbox = st.inbox := rfl

theorem hmFallback_inbox (text msgNorm : Str) (sid : String) (st : Store) (now : Int) :
    ((hmFallback text msgNorm sid st now).2).inbox = st.inbox := rfl

theorem hmCompleteTask_inbox (text msgNorm : Str) (sid : String) (st : Store)
    (now : Int) :
    ((hmCompleteTask text msgNorm sid st now).2).inbox = st.inbox := by
  unfold hmCompleteTask
  cases hm : matchCompleteRaw text with
  | none => exact hmFallback_inbox text msgNorm sid st now
  | some tok =>
    by_cases h : (!(lowEq tok (strL "reminder"))) = true
    · simp only [h, if_true]
      exact complete_task_tool_inbox sid tok st
    · simp only [h, if_false]
      exact hmFallback_inbox text msgNorm sid st now

theorem hmListTasks_inbox (text msgNorm : Str) (sid : String) (st : Store)
    (now : Int) :
    ((hmListTasks text msgNorm sid st now).2).inbox = st.inbox := by
  unfold hmListTasks
  dsimp only
  split
  · split <;> rfl
  · exact hmCompleteTask_inbox text msgNorm sid st now

theorem hmDashboard_inbox (text msgNorm : Str) (sid : String) (st : Store)
    (now : Int) :
    ((hmDashboard text msgNorm sid st now).2).inbox = st.inbox := by
  unfold hmDashboard
  dsimp only
  split
  · rfl
  · exact hmListTasks_inbox text msgNorm sid st now

theorem hmCheckIn_inbox (text msgNorm : Str) (sid : String) (st : Store)
    (now : Int) :
    ((hmCheckIn text msgNorm sid st now).2).inbox = st.inbox := by
  unfold hmCheckIn
  dsimp only
  split
  · split
    · rfl
    · split
      · rfl
      · exact check_in_tool_inbox sid _ _ _ _ st now
  · exact hmDashboard_inbox text msgNorm sid st now

theorem hmCompleteReminder_inbox (text msgNorm : Str) (sid : String) (st : Store)
    (now : Int) :
    ((hmCompleteReminder text msgNorm sid st now).2).inbox = st.inbox := by
  unfold hmCompleteReminder
  cases hm : matchCompleteReminder msgNorm with
  | none => exact hmCheckIn_inbox text msgNorm sid st now
  | some rid => exact complete_reminder_tool_inbox sid rid st

theorem hmListReminders_inbox (text msgNorm : Str) (sid : String) (st : Store)
    (now : Int) :
    ((hmListReminders text msgNorm sid st now).2).inbox = st.inbox := by
  unfold hmListReminders
  dsimp only
  split
  · split <;> rfl
  · exact hmCompleteReminder_inbox text msgNorm sid st now

theorem hmRemindUntimed_inbox (text msgNorm : Str) (sid : String) (st : Store)
    (now : Int) :
    ((hmRemindUntimed text msgNorm sid st now).2).inbox = st.inbox := by
  unfold hmRemindUntimed
  cases hm : matchUntimed msgNorm with
  | none => exact hmListReminders_inbox text msgNorm sid st now
  | some after => exact add_reminder_tool_inbox sid _ none st now

theorem hmRemind_inbox (text msgNorm : Str) (sid : String) (st : Store)
    (now : Int) :
    ((hmRemind text msgNorm sid st now).2).inbox = st.inbox := by
  unfold hmRemind
  dsimp only
  split
  · split
    · split
      · exact add_reminder_tool_inbox sid _ (some _) st now
      · exact hmRemindUntimed_inbox text msgNorm sid st now
    · exact hmRemindUntimed_inbox text msgNorm sid st now
  · exact hmListReminders_inbox text msgNorm sid st now

theorem hmAddTask_inbox (text msgNorm : Str) (sid : String) (st : Store)
    (now : Int) :
    ((hmAddTask text msgNorm sid st now).2).inbox = st.inbox := by
  unfold hmAddTask
  dsimp only
  split
  · exact add_task_tool_inbox sid _ st now
  · exact hmRemind_inbox text msgNorm sid st now

/-- The router never creates or removes InboundRecords, in any branch,
including the raising one. -/
theorem handle_message_inbox (text : Str) (sid : String) (st : Store) (now : Int) :
    ((handle_message text sid st now).2).inbox = st.inbox :=
  hmAddTask_inbox text (pyNorm text) sid st now

/-! ## Claim C1 -/

/-- After an admitted ingest of a nonempty external id, the inbox of the
session has gained exactly the one record carrying that id; nothing later in
the ingest path (history appends, routing, outbox enqueue) touches the inbox. -/
theorem discord_ingest_inbox (sid : String) (mid author content : Str) (st : Store)
    (now : Int) (hnew : has_inbound_id st sid mid = false)
    (hne : mid.isEmpty = false) :
    (discord_ingest sid mid author content st now).2.inbox =
      updF st.inbox sid
        (st.inbox sid ++ [⟨mid, strL "discord", author, pyStrip content, now⟩]) := by
  unfold discord_ingest
  simp only [hnew, Bool.false_eq_true, if_false]
  have hst1 : ((add_inbound st sid author content (strL "discord") (some mid) now).2).inbox =
      updF st.inbox sid
        (st.inbox sid ++ [⟨mid, strL "discord", author, pyStrip content, now⟩]) := by
    unfold add_inbound
    simp [hne]
  rcases hhm : handle_message content sid
      (appendMsg (add_inbound st sid author content (strL "discord") (some mid) now).2
        sid Role.user content now) now with ⟨res, st3⟩
  have hpres := handle_message_inbox content sid
      (appendMsg (add_inbound st sid author content (strL "discord") (some mid) now).2
        sid Role.user content now) now
  rw [hhm] at hpres
  cases res with
  | error e =>
    simp only [hhm]
    rw [hpres]
    exact hst1
  | ok reply =>
    simp only [hhm]
    split
    · show ((add_outbox _ sid reply (strL "discord_reply") now).2).inbox = _
      show ((appendMsg st3 sid Role.assistant reply now)).inbox = _
      rw [show (appendMsg st3 sid Role.assistant reply now).inbox = st3.inbox from rfl]
      rw [hpres]
      exact hst1
    · rw [show (appendMsg st3 sid Role.assistant reply now).inbox = st3.inbox from rfl]
      rw [hpres]
      exact hst1

/-- An admitted ingest never reports deduped. -/
theorem discord_ingest_not_deduped (sid : String) (mid author content : Str)
    (st : Store) (now : Int) (hnew : has_inbound_id st sid mid = false) :
    ∀ resp, (discord_ingest sid mid author content st now).1 = .ok resp →
      resp.deduped = false := by
  intro resp hresp
  unfold discord_ingest at hresp
  simp only [hnew, Bool.false_eq_true, if_false] at hresp
  rcases hhm : handle_message content sid
      (appendMsg (add_inbound st sid author content (strL "discord") (some mid) now).2
        sid Role.user content now) now with ⟨res, st3⟩
  rw [hhm] at hresp
  cases res with
  | error e => simp at hresp
  | ok reply =>
    by_cases hr : (!(pyStrip reply).isEmpty) = true
    · simp only [hr, if_true] at hresp
      cases hresp
      rfl
    · simp only [hr, if_false] at hresp
      cases hresp
      rfl

/-- A duplicate ingest returns the deduped response and the untouched store. -/
theorem discord_ingest_deduped (sid : String) (mid author content : Str)
    (st : Store) (now : Int) (hdup : has_inbound_id st sid mid = true) :
    discord_ingest sid mid author content st now =
      (.ok ⟨true, true, false, none⟩, st) := by
  unfold discord_ingest
  rw [hdup]
  simp

/-- C1 counterexample: the ingest schema admits the empty external message id,
and for it the dedup gate fails: the record is stored under a generated uuid
rather than the external id, so the second identical event is processed again
(deduped=false, a reply queued) and a second InboundRecord is created. -/
theorem C1_counterexample :
    (discord_ingest "s" [] (strL "al") (strL "hello")
        (discord_ingest "s" [] (strL "al") (strL "hello") emptyStore 0).2 1).1 =
      Except.ok ⟨true, false, true,
        some (strL "[MOCK LLM] (session=s) Replying to: hello")⟩ ∧
    ((discord_ingest "s" [] (strL "al") (strL "hello")
        (discord_ingest "s" [] (strL "al") (strL "hello") emptyStore 0).2 1).2.inbox
      "s").length = 2 := by
  constructor
  · rfl
  · rfl

/-- C1 amended: for every session and nonempty external message id not yet
seen for that session, the first ingest is admitted (never reports deduped)
and creates exactly one InboundRecord carrying that id, and the second ingest
of the same event returns the deduped response and returns the store of the
first call completely unchanged — hence it appends no Message, generates no
reply and enqueues no OutboxEntry. -/
theorem C1_dedup_gate (sid : String) (mid author content : Str) (st : Store)
    (now now2 : Int) (hmid : mid ≠ []) (hnew : has_inbound_id st sid mid = false) :
    (∀ resp, (discord_ingest sid mid author content st now).1 = .ok resp →
      resp.deduped = false) ∧
    countInbound (discord_ingest sid mid author content st now).2 sid mid = 1 ∧
    discord_ingest sid mid author content
        (discord_ingest sid mid author content st now).2 now2 =
      (.ok ⟨true, true, false, none⟩,
        (discord_ingest sid mid author content st now).2) := by
  have hne : mid.isEmpty = false := by
    cases mid with
    | nil => exact absurd rfl hmid
    | cons c l => rfl
  have hinbox := discord_ingest_inbox sid mid author content st now hnew hne
  have hfilter : (st.inbox sid).filter (fun m => m.id == mid) = [] := by
    rw [List.filter_eq_nil_iff]
    intro a ha
    exact List.any_eq_false.mp hnew a ha
  have hcount : countInbound (discord_ingest sid mid author content st now).2 sid mid = 1 := by
    unfold countInbound
    rw [hinbox, updF_same, List.filter_append, hfilter]
    simp
  refine ⟨discord_ingest_not_deduped sid mid author content st now hnew, hcount, ?_⟩
  have hdup : has_inbound_id (discord_ingest sid mid author content st now).2 sid mid = true := by
    unfold has_inbound_id
    rw [hinbox, updF_same, List.any_append]
    simp
  exact discord_ingest_deduped sid mid author content _ now2 hdup

/-- C1 witness: a concrete first-then-second ingest of the same event with the
nonempty external id m1 on the empty store. -/
theorem C1_dedup_gate_witness :
    countInbound (discord_ingest "s" (strL "m1") (strL "al") (strL "hello")
        emptyStore 0).2 "s" (strL "m1") = 1 ∧
    discord_ingest "s" (strL "m1") (strL "al") (strL "hello")
        (discord_ingest "s" (strL "m1") (strL "al") (strL "hello") emptyStore 0).2 1 =
      (.ok ⟨true, true, false, none⟩,
        (discord_ingest "s" (strL "m1") (strL "al") (strL "hello") emptyStore 0).2) := by
  have h := C1_dedup_gate "s" (strL "m1") (strL "al") (strL "hello") emptyStore 0 1
    (by decide) (by decide)
  exact ⟨h.2.1, h.2.2⟩

/-! ## String-normalization toolkit for the symbolic router claims -/

theorem toNat_ofNat_valid (n : Nat) (h : n.isValidChar) : (Char.ofNat n).toNat = n := by
  unfold Char.ofNat
  rw [dif_pos h]
  rfl

theorem toLower_ne_space {c : Char} (h : ¬c = ' ') : ¬Char.toLower c = ' ' := by
  unfold Char.toLower
  dsimp only
  split
  · rename_i hc
    intro habs
    have h1 : (Char.ofNat (c.toNat + 32)).toNat = ' '.toNat := by rw [habs]
    have hv : (c.toNat + 32).isValidChar := by
      unfold Nat.isValidChar
      left
      omega
    rw [toNat_ofNat_valid _ hv] at h1
    have h2 : (' ').toNat = 32 := rfl
    omega
  · exact h

theorem ne_space_of_not_pyWs {c : Char} (h : ¬pyWs c = true) : c ≠ ' ' := by
  intro habs
  subst habs
  exact h rfl

theorem mapLower_no_space {t : Str} (h : ∀ c ∈ t, c ≠ ' ') :
    ∀ c ∈ t.map Char.toLower, c ≠ ' ' := by
  intro c hc
  obtain ⟨a, ha, rfl⟩ := List.mem_map.1 hc
  exact toLower_ne_space (h a ha)

theorem startsW_mem {p l : Str} (h : startsW p l = true) : ∀ x ∈ p, x ∈ l := by
  induction p generalizing l with
  | nil => intro x hx; cases hx
  | cons a as ih =>
    cases l with
    | nil => cases h
    | cons b bs =>
      simp only [startsW, Bool.and_eq_true, beq_iff_eq] at h
      intro x hx
      rcases List.mem_cons.1 hx with rfl | hx
      · rw [h.1]; exact List.mem_cons_self _ _
      · exact List.mem_cons_of_mem _ (ih h.2 x hx)

/-- A needle containing a space never occurs inside a space-free string. -/
theorem containsSub_space_free {needle t : Str} (hn : ' ' ∈ needle)
    (ht : ∀ c ∈ t, c ≠ ' ') : containsSub needle t = false := by
  induction t with
  | nil =>
    cases needle with
    | nil => cases hn
    | cons a as => rfl
  | cons c rest ih =>
    unfold containsSub
    rw [Bool.or_eq_false_iff]
    constructor
    · by_contra hb
      rw [Bool.not_eq_false] at hb
      exact ht ' ' (startsW_mem hb ' ' hn) rfl
    · exact ih (fun x hx => ht x (List.mem_cons_of_mem _ hx))

theorem dropWhile_eq_self_of_head {l : Str}
    (h : ∀ c, l.head? = some c → pyWs c = false) : l.dropWhile pyWs = l := by
  cases l with
  | nil => rfl
  | cons a rest => rw [List.dropWhile_cons, h a rfl]; simp

theorem pyStrip_eq_self {l : Str}
    (h1 : ∀ c, l.head? = some c → pyWs c = false)
    (h2 : ∀ c, l.getLast? = some c → pyWs c = false) : pyStrip l = l := by
  unfold pyStrip
  rw [dropWhile_eq_self_of_head h1]
  rw [dropWhile_eq_self_of_head (by rw [List.head?_reverse]; exact h2)]
  exact List.reverse_reverse l

theorem map_ws2sp_id {l : Str} (h : ∀ c ∈ l, ¬pyWs c = true) : l.map ws2sp = l := by
  induction l with
  | nil => rfl
  | cons a rest ih =>
    have ha : ws2sp a = a := by
      unfold ws2sp
      rw [if_neg (h a (List.mem_cons_self _ _))]
    simp only [List.map_cons, ha, ih (fun c hc => h c (List.mem_cons_of_mem _ hc))]

theorem squeeze_eq_self : ∀ {l : Str}, noDoubleSp l = true → squeeze l = l
  | [], _ => rfl
  | [_], _ => rfl
  | a :: b :: rest, h => by
    unfold noDoubleSp at h
    rw [Bool.and_eq_true] at h
    unfold squeeze
    rw [show (a == ' ' && b == ' ') = false from by
      cases hab : (a == ' ' && b == ' ') with
      | false => rfl
      | true => rw [hab] at h; cases h.1]
    rw [squeeze_eq_self h.2]
    simp

theorem noDoubleSp_of_no_space : ∀ {t : Str}, (∀ c ∈ t, c ≠ ' ') → noDoubleSp t = true
  | [], _ => rfl
  | [_], _ => rfl
  | a :: b :: rest, h => by
    unfold noDoubleSp
    rw [Bool.and_eq_true]
    refine ⟨?_, noDoubleSp_of_no_space (fun c hc => h c (List.mem_cons_of_mem _ hc))⟩
    rw [show (a == ' ') = false from beq_eq_false_iff_ne.2 (h a (List.mem_cons_self _ _))]
    rfl

theorem noDoubleSp_append : ∀ {a : Str} {b : Str}, noDoubleSp a = true →
    noDoubleSp b = true →
    (∀ x y, a.getLast? = some x → b.head? = some y → (x == ' ' && y == ' ') = false) →
    noDoubleSp (a ++ b) = true
  | [], b, _, hb, _ => hb
  | [c], b, _, hb, hab => by
    cases b with
    | nil => rfl
    | cons d rest =>
      show noDoubleSp (c :: d :: rest) = true
      unfold noDoubleSp
      rw [Bool.and_eq_true]
      exact ⟨by rw [hab c d rfl rfl]; rfl, hb⟩
  | c :: c2 :: rest, b, ha, hb, hab => by
    unfold noDoubleSp at ha
    rw [Bool.and_eq_true] at ha
    show noDoubleSp (c :: (c2 :: rest ++ b)) = true
    have hrec : noDoubleSp (c2 :: rest ++ b) = true :=
      noDoubleSp_append ha.2 hb (fun x y hx hy => by
        rw [← List.getLast?_cons_cons (a := c)] at hx
        exact hab x y hx hy)
    cases hr : c2 :: rest ++ b with
    | nil => rfl
    | cons d tail =>
      have hd : d = c2 := by
        rw [List.cons_append] at hr
        exact (List.head_eq_of_cons_eq hr).symm
      show noDoubleSp (c :: d :: tail) = true
      unfold noDoubleSp
      rw [Bool.and_eq_true]
      constructor
      · rw [hd]
        cases hcc : (c == ' ' && c2 == ' ') with
        | false => rfl
        | true => rw [hcc] at ha; cases ha.1
      · rw [← hr]; exact hrec

/-- The whitespace-normalization is the identity on already-normal strings. -/
theorem pyNorm_eq_self {l : Str}
    (h1 : ∀ c, l.head? = some c → pyWs c = false)
    (h2 : ∀ c, l.getLast? = some c → pyWs c = false)
    (h3 : l.map ws2sp = l) (h4 : noDoubleSp l = true) : pyNorm l = l := by
  unfold pyNorm
  rw [pyStrip_eq_self h1 h2, h3, squeeze_eq_self h4]

theorem getLast?_mem {l : Str} {a : Char} (h : l.getLast? = some a) : a ∈ l := by
  obtain ⟨ys, rfl⟩ := List.getLast?_eq_some_iff.1 h
  simp

theorem splitSp_cons_ne {c : Char} (l : Str) (hc : (c == ' ') = false) :
    splitSp (c :: l) =
      match splitSp l with
      | [] => [[c]]
      | t :: ts => (c :: t) :: ts := by
  conv_lhs => rw [splitSp.eq_def]
  simp [hc]

/-- Splitting at spaces peels off one space-free token before a space. -/
theorem splitSp_sep (tok rest : Str) (h : ∀ c ∈ tok, c ≠ ' ') :
    splitSp (tok ++ ' ' :: rest) = tok :: splitSp rest := by
  induction tok with
  | nil => simp [splitSp]
  | cons c tl ih =>
    have hc : (c == ' ') = false := beq_eq_false_iff_ne.2 (h c (List.mem_cons_self _ _))
    rw [List.cons_append, splitSp_cons_ne _ hc,
        ih (fun x hx => h x (List.mem_cons_of_mem _ hx))]

/-! ## Stage-reduction lemmas for the router under guard hypotheses -/

theorem hmAddTask_not {text msgNorm : Str} {sid : String} {st : Store} {now : Int}
    (hg : (startsW (strL "add task") (msgNorm.map Char.toLower) ||
           startsW (strL "todo") (msgNorm.map Char.toLower) ||
           startsW (strL "remember to") (msgNorm.map Char.toLower)) = false) :
    hmAddTask text msgNorm sid st now = hmRemind text msgNorm sid st now := by
  unfold hmAddTask
  dsimp only
  rw [hg]
  simp

theorem hmAddTask_addtask {text msgNorm : Str} {sid : String} {st : Store} {now : Int}
    (hg : startsW (strL "add task") (msgNorm.map Char.toLower) = true) :
    hmAddTask text msgNorm sid st now =
      (.ok (strL "Task added: " ++ dropAfterSp 2 text),
       (add_task_tool sid (dropAfterSp 2 text) st now).2) := by
  unfold hmAddTask
  dsimp only
  rw [hg]
  simp

theorem hmRemind_not {text msgNorm : Str} {sid : String} {st : Store} {now : Int}
    (hg : startsW (strL "remind me") (msgNorm.map Char.toLower) = false) :
    hmRemind text msgNorm sid st now = hmListReminders text msgNorm sid st now := by
  unfold hmRemind
  dsimp only
  rw [hg]
  simp

theorem hmRemind_timed {text msgNorm ntok after : Str} {sid : String} {st : Store}
    {now : Int} {minutes : Int}
    (hg : startsW (strL "remind me") (msgNorm.map Char.toLower) = true)
    (hm : matchTimed msgNorm = some (ntok, after))
    (hp : parseSN ntok = some minutes) :
    hmRemind text msgNorm sid st now =
      (.ok (strL "Reminder set in " ++ intStr minutes ++ strL " minutes: " ++
            stripSet (strL " .!?") after),
       (add_reminder_tool sid (stripSet (strL " .!?") after) (some minutes) st now).2) := by
  unfold hmRemind
  dsimp only
  rw [hg, hm]
  simp [hp]

theorem hmListReminders_not {text msgNorm : Str} {sid : String} {st : Store} {now : Int}
    (hg : (containsSub (strL "list reminders") (msgNorm.map Char.toLower) ||
           containsSub (strL "my reminders") (msgNorm.map Char.toLower)) = false) :
    hmListReminders text msgNorm sid st now =
      hmCompleteReminder text msgNorm sid st now := by
  unfold hmListReminders
  dsimp only
  rw [hg]
  simp

theorem hmCompleteReminder_hit {text msgNorm rid : Str} {sid : String} {st : Store}
    {now : Int} (hm : matchCompleteReminder msgNorm = some rid) :
    hmCompleteReminder text msgNorm sid st now =
      (.ok (if (complete_reminder_tool sid rid st).1 then strL "Reminder completed."
            else strL "Reminder not found."),
       (complete_reminder_tool sid rid st).2) := by
  unfold hmCompleteReminder
  rw [hm]

theorem hmCompleteReminder_not {text msgNorm : Str} {sid : String} {st : Store}
    {now : Int} (hm : matchCompleteReminder msgNorm = none) :
    hmCompleteReminder text msgNorm sid st now = hmCheckIn text msgNorm sid st now := by
  unfold hmCompleteReminder
  rw [hm]

theorem hmCheckIn_not {text msgNorm : Str} {sid : String} {st : Store} {now : Int}
    (hg : startsW (strL "check in") (msgNorm.map Char.toLower) = false) :
    hmCheckIn text msgNorm sid st now = hmDashboard text msgNorm sid st now := by
  unfold hmCheckIn
  dsimp only
  rw [hg]
  simp

theorem hmDashboard_not {text msgNorm : Str} {sid : String} {st : Store} {now : Int}
    (hg : (dashTriggers.any (fun s => s == msgNorm.map Char.toLower)) = false) :
    hmDashboard text msgNorm sid st now = hmListTasks text msgNorm sid st now := by
  unfold hmDashboard
  dsimp only
  rw [hg]
  simp

theorem hmListTasks_not {text msgNorm : Str} {sid : String} {st : Store} {now : Int}
    (hg : (containsSub (strL "list tasks") (msgNorm.map Char.toLower) ||
           containsSub (strL "my tasks") (msgNorm.map Char.toLower)) = false) :
    hmListTasks text msgNorm sid st now = hmCompleteTask text msgNorm sid st now := by
  unfold hmListTasks
  dsimp only
  rw [hg]
  simp

theorem hmCompleteTask_hit {text msgNorm tok : Str} {sid : String} {st : Store}
    {now : Int} (hm : matchCompleteRaw text = some tok)
    (htok : lowEq tok (strL "reminder") = false) :
    hmCompleteTask text msgNorm sid st now =
      (.ok (if (complete_task_tool sid tok st).1 then strL "Task completed."
            else strL "Task not found."),
       (complete_task_tool sid tok st).2) := by
  unfold hmCompleteTask
  rw [hm]
  simp [htok]

/-! ## Claim C4 -/

theorem digitsVal_all {l : Str} {v : Nat} (h : digitsVal l = some v) :
    ∀ c ∈ l, c.isDigit = true := by
  intro c hc
  cases l with
  | nil => cases hc
  | cons a rest =>
    by_cases hall : ((a :: rest).all Char.isDigit) = true
    · exact List.all_eq_true.1 hall c hc
    · exfalso
      have hnone : digitsVal (a :: rest) = none := by
        rw [show digitsVal (a :: rest) =
            if (a :: rest).all Char.isDigit = true then
              some ((a :: rest).foldl (fun a c => a * 10 + (c.toNat - 48)) 0)
            else none from rfl,
          if_neg hall]
      rw [hnone] at h
      cases h

theorem isDigit_not_pyWs {c : Char} (h : c.isDigit = true) : pyWs c = false := by
  cases hw : pyWs c with
  | false => rfl
  | true =>
    exfalso
    unfold pyWs at hw
    simp only [Bool.or_eq_true, beq_iff_eq] at hw
    rcases hw with ((((rfl | rfl) | rfl) | rfl) | rfl) | rfl <;>
      exact absurd h (by decide)

/-- A token accepted by the signed-number parser is a nonempty whitespace-free
word (it matches the regex group `[+-]?\d+`). -/
theorem parseSN_token {s : Str} {n : Int} (h : parseSN s = some n) :
    s ≠ [] ∧ ∀ c ∈ s, pyWs c = false := by
  cases s with
  | nil => cases h
  | cons a rest =>
    refine ⟨by simp, ?_⟩
    rw [parseSN.eq_def] at h
    split at h
    · rename_i heq
      cases heq
    · rename_i rest2 heq
      obtain ⟨rfl, rfl⟩ : a = '+' ∧ rest = rest2 := by
        injection heq with h1 h2
        exact ⟨h1, h2⟩
      cases hv : digitsVal rest with
      | none => rw [hv] at h; cases h
      | some v =>
        intro c hc
        rcases List.mem_cons.1 hc with rfl | hc
        · decide
        · exact isDigit_not_pyWs (digitsVal_all hv c hc)
    · rename_i rest2 heq
      obtain ⟨rfl, rfl⟩ : a = '-' ∧ rest = rest2 := by
        injection heq with h1 h2
        exact ⟨h1, h2⟩
      cases hv : digitsVal rest with
      | none => rw [hv] at h; cases h
      | some v =>
        intro c hc
        rcases List.mem_cons.1 hc with rfl | hc
        · decide
        · exact isDigit_not_pyWs (digitsVal_all hv c hc)
    · cases hv : digitsVal (a :: rest) with
      | none => rw [hv] at h; cases h
      | some v => exact fun c hc => isDigit_not_pyWs (digitsVal_all hv c hc)

/-- C4: for every signed-integer token parsed to n, routing the input
remind me in n minutes to X creates a Reminder whose due timestamp is exactly
now + n minutes (60·n seconds), uncompleted, and replies with the timed
confirmation; in particular n = -5 puts the due timestamp strictly before now
(already overdue, not an error) and n = 15 puts it at now + 15 minutes. -/
theorem C4_reminder_minutes_sign_preserving (s : Str) (n : Int) (sid : String)
    (st : Store) (now : Int) (hs : parseSN s = some n) :
    (handle_message (strL "remind me in " ++ (s ++ strL " minutes to X"))
        sid st now).1 =
      .ok (strL "Reminder set in " ++ intStr n ++ strL " minutes: " ++ strL "X") ∧
    ((handle_message (strL "remind me in " ++ (s ++ strL " minutes to X"))
        sid st now).2).reminders sid =
      st.reminders sid ++ [⟨freshId st.fresh, strL "X", now + 60 * n, false, now⟩] ∧
    (n = -5 → now + 60 * n < now) ∧
    (n = 15 → now + 60 * n = now + 900) := by
  obtain ⟨hne, hws⟩ := parseSN_token hs
  have hnsp : ∀ c ∈ s, c ≠ ' ' := fun c hc =>
    ne_space_of_not_pyWs (by rw [hws c hc]; simp)
  have hhead : ∀ c ∈ s ++ strL " minutes to X", True := fun _ _ => trivial
  -- normalization is the identity on this input
  have hnorm : pyNorm (strL "remind me in " ++ (s ++ strL " minutes to X")) =
      strL "remind me in " ++ (s ++ strL " minutes to X") := by
    apply pyNorm_eq_self
    · intro c hc
      rw [show (strL "remind me in " ++ (s ++ strL " minutes to X")).head? =
          some 'r' from rfl] at hc
      cases hc
      decide
    · intro c hc
      rw [List.getLast?_append, List.getLast?_append,
          show (strL " minutes to X").getLast? = some 'X' from rfl] at hc
      cases hc
      decide
    · rw [List.map_append, List.map_append,
          show List.map ws2sp (strL "remind me in ") = strL "remind me in " from rfl,
          show List.map ws2sp (strL " minutes to X") = strL " minutes to X" from rfl,
          map_ws2sp_id (l := s) (fun c hc => by rw [hws c hc]; simp)]
    · apply noDoubleSp_append (by decide)
      · apply noDoubleSp_append (noDoubleSp_of_no_space hnsp) (by decide)
        intro x y hx hy
        rw [show (strL " minutes to X").head? = some ' ' from rfl] at hy
        cases hy
        rw [beq_eq_false_iff_ne.2 (hnsp x (getLast?_mem hx))]
        rfl
      · intro x y hx hy
        rw [show (strL "remind me in ").getLast? = some ' ' from rfl] at hx
        cases hx
        cases s with
        | nil => exact absurd rfl hne
        | cons a tl =>
          rw [show ((a :: tl) ++ strL " minutes to X").head? = some a from rfl] at hy
          injection hy with hy2
          subst hy2
          rw [Bool.and_eq_false_iff]
          right
          exact beq_eq_false_iff_ne.2 (hnsp a (List.mem_cons_self _ _))
  -- the lowercased normalized text
  have hlow : (strL "remind me in " ++ (s ++ strL " minutes to X")).map Char.toLower =
      strL "remind me in " ++ (s.map Char.toLower ++ strL " minutes to x") := by
    simp only [List.map_append]
    rfl
  -- token split of the normalized text
  have hsplit : splitSp (strL "remind me in " ++ (s ++ strL " minutes to X")) =
      [strL "remind", strL "me", strL "in", s, strL "minutes", strL "to", strL "X"] := by
    rw [show strL "remind me in " ++ (s ++ strL " minutes to X") =
        strL "remind" ++ ' ' :: (strL "me" ++ ' ' :: (strL "in" ++ ' ' ::
          (s ++ ' ' :: (strL "minutes" ++ ' ' :: (strL "to" ++ ' ' :: strL "X")))))
        from rfl]
    rw [splitSp_sep _ _ (by decide), splitSp_sep _ _ (by decide),
        splitSp_sep _ _ (by decide), splitSp_sep _ _ hnsp,
        splitSp_sep _ _ (by decide), splitSp_sep _ _ (by decide)]
    rfl
  have hmt : matchTimed (strL "remind me in " ++ (s ++ strL " minutes to X")) =
      some (s, strL "X") := by
    unfold matchTimed
    rw [hsplit]
    simp [lowEq, strL, hs, joinSp]
  have hchain : handle_message (strL "remind me in " ++ (s ++ strL " minutes to X"))
      sid st now =
      (.ok (strL "Reminder set in " ++ intStr n ++ strL " minutes: " ++ strL "X"),
       (add_reminder_tool sid (strL "X") (some n) st now).2) := by
    unfold handle_message
    rw [hnorm]
    rw [hmAddTask_not (by rw [hlow]; simp [startsW, strL])]
    rw [hmRemind_timed (by rw [hlow]; simp [startsW, strL]) hmt hs]
    rw [show stripSet (strL " .!?") (strL "X") = strL "X" from rfl]
  refine ⟨by rw [hchain], ?_, fun h => by omega, fun h => by rw [h]; ring⟩
  rw [hchain]
  show ((add_reminder_tool sid (strL "X") (some n) st now).2).reminders sid = _
  rw [show (add_reminder_tool sid (strL "X") (some n) st now).2 =
      (add_reminder st sid (strL "X") (some (now + 60 * n)) now).2 from rfl]
  rw [show ((add_reminder st sid (strL "X") (some (now + 60 * n)) now).2).reminders =
      updF st.reminders sid (st.reminders sid ++
        [⟨freshId st.fresh, strL "X", now + 60 * n, false, now⟩]) from rfl,
    updF_same]

/-- C4 witness: remind me in -5 minutes to X at time 1000 creates the reminder
due at 700 (strictly before now) and echoes the -5 in the reply. -/
theorem C4_reminder_minutes_sign_preserving_witness :
    (handle_message (strL "remind me in " ++ (strL "-5" ++ strL " minutes to X"))
        "s" emptyStore 1000).1 =
      .ok (strL "Reminder set in " ++ intStr (-5) ++ strL " minutes: " ++ strL "X") ∧
    ((handle_message (strL "remind me in " ++ (strL "-5" ++ strL " minutes to X"))
        "s" emptyStore 1000).2).reminders "s" =
      emptyStore.reminders "s" ++
        [⟨freshId emptyStore.fresh, strL "X", 1000 + 60 * (-5), false, 1000⟩] ∧
    ((-5 : Int) = -5 → (1000 : Int) + 60 * (-5) < 1000) ∧
    ((-5 : Int) = 15 → (1000 : Int) + 60 * (-5) = 1000 + 900) :=
  C4_reminder_minutes_sign_preserving (strL "-5") (-5) "s" emptyStore 1000 (by decide)

/-! ## Claim C8 -/

theorem startsW_self_append (p r : Str) : startsW p (p ++ r) = true := by
  induction p with
  | nil => rfl
  | cons c tl ih => simp [startsW, ih]

theorem squeeze_cons_cons {a b : Char} (l : Str) (hab : (a == ' ' && b == ' ') = false) :
    squeeze (a :: b :: l) = a :: squeeze (b :: l) := by
  conv_lhs => rw [squeeze.eq_def]
  simp [hab]

theorem squeeze_append : ∀ {a b : Str}, noDoubleSp a = true →
    (∀ x y, a.getLast? = some x → b.head? = some y → (x == ' ' && y == ' ') = false) →
    squeeze (a ++ b) = a ++ squeeze b
  | [], b, _, _ => rfl
  | [c], b, _, hab => by
    cases b with
    | nil => rfl
    | cons d rest => exact squeeze_cons_cons _ (hab c d rfl rfl)
  | c :: c2 :: rest, b, ha, hab => by
    unfold noDoubleSp at ha
    rw [Bool.and_eq_true] at ha
    have hrec : squeeze ((c2 :: rest) ++ b) = (c2 :: rest) ++ squeeze b :=
      squeeze_append ha.2 (fun x y hx hy => by
        rw [← List.getLast?_cons_cons (a := c)] at hx
        exact hab x y hx hy)
    rw [List.cons_append] at hrec
    show squeeze (c :: (c2 :: (rest ++ b))) = c :: ((c2 :: rest) ++ squeeze b)
    rw [squeeze_cons_cons _ (by
      cases hcc : (c == ' ' && c2 == ' ') with
      | false => rfl
      | true => rw [hcc] at ha; cases ha.1), hrec]

/-- C8 counterexample: on the repeated-whitespace input add  task X (double
space inside the trigger) — which the matcher tolerates — the stored Task
title is task X, not X: the split-point arithmetic on the raw text
misaligns, so the claimed title postcondition fails. -/
theorem C8_counterexample :
    (handle_message (strL "add  task X") "s" emptyStore 0).1 =
      .ok (strL "Task added: task X") ∧
    ((handle_message (strL "add  task X") "s" emptyStore 0).2.tasks "s").map
      (fun t => t.title) = [strL "task X"] ∧
    strL "task X" ≠ strL "X" :=
  ⟨rfl, rfl, by decide⟩

/-- C8 amended: for every nonempty title X with no leading or trailing
whitespace, routing add task X (single-space trigger) creates exactly one
Task whose title is exactly X (internal whitespace preserved as written, not
normalized) with completed=false, and returns the reply Task added: X. -/
theorem C8_add_task_postcondition (X : Str) (sid : String) (st : Store) (now : Int)
    (hne : X ≠ [])
    (hh : ∀ c, X.head? = some c → pyWs c = false)
    (hl : ∀ c, X.getLast? = some c → pyWs c = false) :
    (handle_message (strL "add task " ++ X) sid st now).1 =
      .ok (strL "Task added: " ++ X) ∧
    ((handle_message (strL "add task " ++ X) sid st now).2).tasks sid =
      st.tasks sid ++ [⟨freshId st.fresh, X, false, now⟩] := by
  obtain ⟨x0, Xtl, rfl⟩ : ∃ c tl, X = c :: tl := by
    cases X with
    | nil => exact absurd rfl hne
    | cons c tl => exact ⟨c, tl, rfl⟩
  have hx0 : pyWs x0 = false := hh x0 rfl
  -- the strip pass is the identity on this input
  have hstrip : pyStrip (strL "add task " ++ (x0 :: Xtl)) = strL "add task " ++ (x0 :: Xtl) := by
    apply pyStrip_eq_self
    · intro c hc
      rw [show (strL "add task " ++ (x0 :: Xtl)).head? = some 'a' from rfl] at hc
      cases hc
      decide
    · intro c hc
      rw [List.getLast?_append] at hc
      rw [show (x0 :: Xtl).getLast? = some ((x0 :: Xtl).getLast (by simp)) from
        List.getLast?_eq_getLast _ (by simp)] at hc
      cases hc
      exact hl _ (List.getLast?_eq_getLast _ (by simp))
  -- the normalized input keeps the literal add task prefix
  have hnormform : pyNorm (strL "add task " ++ (x0 :: Xtl)) =
      strL "add task " ++ squeeze ((x0 :: Xtl).map ws2sp) := by
    unfold pyNorm
    rw [hstrip, List.map_append,
        show List.map ws2sp (strL "add task ") = strL "add task " from rfl]
    apply squeeze_append (by decide)
    intro x y hx hy
    rw [show (strL "add task ").getLast? = some ' ' from rfl] at hx
    cases hx
    rw [show ((x0 :: Xtl).map ws2sp).head? = some (ws2sp x0) from rfl] at hy
    injection hy with hy2
    subst hy2
    have : ws2sp x0 = x0 := by unfold ws2sp; rw [hx0]; simp
    rw [Bool.and_eq_false_iff]
    right
    rw [this]
    exact beq_eq_false_iff_ne.2 (ne_space_of_not_pyWs (by rw [hx0]; simp))
  have hguard : startsW (strL "add task")
      ((pyNorm (strL "add task " ++ (x0 :: Xtl))).map Char.toLower) = true := by
    rw [hnormform, List.map_append,
        show List.map Char.toLower (strL "add task ") = strL "add task " from rfl,
        show strL "add task " ++ List.map Char.toLower (squeeze ((x0 :: Xtl).map ws2sp)) =
          strL "add task" ++ (' ' :: List.map Char.toLower (squeeze ((x0 :: Xtl).map ws2sp)))
          from rfl]
    exact startsW_self_append _ _
  have htitle : dropAfterSp 2 (strL "add task " ++ (x0 :: Xtl)) = x0 :: Xtl := rfl
  have hchain : handle_message (strL "add task " ++ (x0 :: Xtl)) sid st now =
      (.ok (strL "Task added: " ++ (x0 :: Xtl)),
       (add_task_tool sid (x0 :: Xtl) st now).2) := by
    unfold handle_message
    rw [hmAddTask_addtask hguard, htitle]
  refine ⟨by rw [hchain], ?_⟩
  rw [hchain]
  show ((add_task_tool sid (x0 :: Xtl) st now).2).tasks sid = _
  rw [show (add_task_tool sid (x0 :: Xtl) st now).2 =
      (add_task st sid (x0 :: Xtl) now).2 from rfl]
  rw [show ((add_task st sid (x0 :: Xtl) now).2).tasks =
      updF st.tasks sid (st.tasks sid ++
        [⟨freshId st.fresh, pyStrip (x0 :: Xtl), false, now⟩]) from rfl,
    updF_same]
  rw [pyStrip_eq_self hh hl]

/-- C8 witness: add task Email  Bob (double internal space inside the title)
stores exactly that title, uncompleted, and echoes it. -/
theorem C8_add_task_postcondition_witness :
    (handle_message (strL "add task " ++ strL "Email  Bob") "s" emptyStore 7).1 =
      .ok (strL "Task added: " ++ strL "Email  Bob") ∧
    ((handle_message (strL "add task " ++ strL "Email  Bob") "s" emptyStore 7).2).tasks
      "s" = emptyStore.tasks "s" ++
        [⟨freshId emptyStore.fresh, strL "Email  Bob", false, 7⟩] :=
  C8_add_task_postcondition (strL "Email  Bob") "s" emptyStore 7 (by decide)
    (by intro c hc; injection hc with h2; subst h2; decide)
    (by intro c hc; injection hc with h2; subst h2; decide)

/-! ## Claim C3 -/

theorem isTokenB_spec {t : Str} (h : isTokenB t = true) :
    t ≠ [] ∧ ∀ c ∈ t, pyWs c = false := by
  unfold isTokenB at h
  rw [Bool.and_eq_true] at h
  constructor
  · intro habs
    subst habs
    cases h.1
  · intro c hc
    have h2 := List.all_eq_true.1 h.2 c hc
    cases hpw : pyWs c with
    | false => rfl
    | true => rw [hpw] at h2; cases h2

theorem splitSp_token (t : Str) (h : ∀ c ∈ t, c ≠ ' ') : splitSp t = [t] := by
  induction t with
  | nil => rfl
  | cons c tl ih =>
    rw [splitSp_cons_ne _ (beq_eq_false_iff_ne.2 (h c (List.mem_cons_self _ _))),
        ih (fun x hx => h x (List.mem_cons_of_mem _ hx))]

theorem startsW_space_free {p l : Str} (hp : ' ' ∈ p) (hl : ∀ c ∈ l, c ≠ ' ') :
    startsW p l = false := by
  cases hs : startsW p l with
  | false => rfl
  | true => exact absurd (startsW_mem hs ' ' hp) (fun hm => hl ' ' hm rfl)

theorem complete_reminder_tool_tasks (sid : String) (rid : Str) (st : Store) :
    ((complete_reminder_tool sid rid st).2).tasks = st.tasks := by
  unfold complete_reminder_tool complete_reminder
  split <;> rfl

theorem complete_task_tool_reminders (sid : String) (tid : Str) (st : Store) :
    ((complete_task_tool sid tid st).2).reminders = st.reminders := by
  unfold complete_task_tool complete_task
  split <;> rfl

/-- Routing of complete reminder t, for any token t: the explicit reminder
rule fires, dispatching to the reminder-completion tool; tasks untouched. -/
theorem C3_reminder_routing_aux (t : Str) (sid : String) (st : Store) (now : Int)
    (ht : isTokenB t = true) :
    handle_message (strL "complete reminder " ++ t) sid st now =
      (.ok (if (complete_reminder_tool sid t st).1 then strL "Reminder completed."
            else strL "Reminder not found."),
       (complete_reminder_tool sid t st).2) := by
  obtain ⟨hne, hws⟩ := isTokenB_spec ht
  have hnsp : ∀ c ∈ t, c ≠ ' ' := fun c hc =>
    ne_space_of_not_pyWs (by rw [hws c hc]; simp)
  obtain ⟨t0, ttl, rfl⟩ : ∃ c tl, t = c :: tl := by
    cases t with
    | nil => exact absurd rfl hne
    | cons c tl => exact ⟨c, tl, rfl⟩
  have hnorm : pyNorm (strL "complete reminder " ++ (t0 :: ttl)) =
      strL "complete reminder " ++ (t0 :: ttl) := by
    apply pyNorm_eq_self
    · intro c hc
      rw [show (strL "complete reminder " ++ (t0 :: ttl)).head? = some 'c' from rfl] at hc
      cases hc
      decide
    · intro c hc
      rw [List.getLast?_append,
          show (t0 :: ttl).getLast? = some ((t0 :: ttl).getLast (by simp)) from
            List.getLast?_eq_getLast _ (by simp)] at hc
      cases hc
      exact hws _ (getLast?_mem (List.getLast?_eq_getLast _ (by simp)))
    · rw [List.map_append,
          show List.map ws2sp (strL "complete reminder ") = strL "complete reminder "
            from rfl,
          map_ws2sp_id (l := t0 :: ttl) (fun c hc => by rw [hws c hc]; simp)]
    · apply noDoubleSp_append (by decide) (noDoubleSp_of_no_space hnsp)
      intro x y hx hy
      rw [show (strL "complete reminder ").getLast? = some ' ' from rfl] at hx
      cases hx
      rw [show (t0 :: ttl).head? = some t0 from rfl] at hy
      injection hy with hy2
      subst hy2
      rw [Bool.and_eq_false_iff]
      right
      exact beq_eq_false_iff_ne.2 (hnsp t0 (List.mem_cons_self _ _))
  have hlow : (strL "complete reminder " ++ (t0 :: ttl)).map Char.toLower =
      strL "complete reminder " ++ (t0 :: ttl).map Char.toLower := by
    simp only [List.map_append]
    rfl
  have hW : ∀ c ∈ List.map Char.toLower ttl, c ≠ ' ' :=
    mapLower_no_space (fun c hc => hnsp c (List.mem_cons_of_mem _ hc))
  have g1 : ∀ p : Str, ' ' ∈ p → startsW p (List.map Char.toLower ttl) = false :=
    fun p hp => startsW_space_free hp hW
  have g2 : ∀ p : Str, ' ' ∈ p → containsSub p (List.map Char.toLower ttl) = false :=
    fun p hp => containsSub_space_free hp hW
  have hsplit : splitSp (strL "complete reminder " ++ (t0 :: ttl)) =
      [strL "complete", strL "reminder", t0 :: ttl] := by
    rw [show strL "complete reminder " ++ (t0 :: ttl) =
        strL "complete" ++ ' ' :: (strL "reminder" ++ ' ' :: (t0 :: ttl)) from rfl]
    rw [splitSp_sep _ _ (by decide), splitSp_sep _ _ (by decide),
        splitSp_token _ hnsp]
  have hmcr : matchCompleteReminder (strL "complete reminder " ++ (t0 :: ttl)) =
      some (t0 :: ttl) := by
    unfold matchCompleteReminder
    rw [hsplit]
    simp [lowEq, strL]
  unfold handle_message
  rw [hnorm]
  rw [hmAddTask_not (by rw [hlow]; simp [startsW, strL])]
  rw [hmRemind_not (by rw [hlow]; simp [startsW, strL])]
  rw [hmListReminders_not (by
    rw [hlow]
    simp [containsSub, startsW, strL, g1, g2])]
  rw [hmCompleteReminder_hit hmcr]

/-- Routing of complete t for any token t whose lowercase form is not the word
reminder: the task-completion rule fires, dispatching to the task tool. -/
theorem C3_task_routing_aux (t : Str) (sid : String) (st : Store) (now : Int)
    (ht : isTokenB t = true) (hlowt : lowEq t (strL "reminder") = false) :
    handle_message (strL "complete " ++ t) sid st now =
      (.ok (if (complete_task_tool sid t st).1 then strL "Task completed."
            else strL "Task not found."),
       (complete_task_tool sid t st).2) := by
  obtain ⟨hne, hws⟩ := isTokenB_spec ht
  have hnsp : ∀ c ∈ t, c ≠ ' ' := fun c hc =>
    ne_space_of_not_pyWs (by rw [hws c hc]; simp)
  obtain ⟨t0, ttl, rfl⟩ : ∃ c tl, t = c :: tl := by
    cases t with
    | nil => exact absurd rfl hne
    | cons c tl => exact ⟨c, tl, rfl⟩
  have hgl : (t0 :: ttl).getLast? = some ((t0 :: ttl).getLast (by simp)) :=
    List.getLast?_eq_getLast _ (by simp)
  have hstrip : pyStrip (strL "complete " ++ (t0 :: ttl)) =
      strL "complete " ++ (t0 :: ttl) := by
    apply pyStrip_eq_self
    · intro c hc
      rw [show (strL "complete " ++ (t0 :: ttl)).head? = some 'c' from rfl] at hc
      cases hc
      decide
    · intro c hc
      rw [List.getLast?_append, hgl] at hc
      cases hc
      exact hws _ (getLast?_mem hgl)
  have hnorm : pyNorm (strL "complete " ++ (t0 :: ttl)) =
      strL "complete " ++ (t0 :: ttl) := by
    unfold pyNorm
    rw [hstrip, List.map_append,
        show List.map ws2sp (strL "complete ") = strL "complete " from rfl,
        map_ws2sp_id (l := t0 :: ttl) (fun c hc => by rw [hws c hc]; simp)]
    apply squeeze_eq_self
    apply noDoubleSp_append (by decide) (noDoubleSp_of_no_space hnsp)
    intro x y hx hy
    rw [show (strL "complete ").getLast? = some ' ' from rfl] at hx
    cases hx
    rw [show (t0 :: ttl).head? = some t0 from rfl] at hy
    injection hy with hy2
    subst hy2
    rw [Bool.and_eq_false_iff]
    right
    exact beq_eq_false_iff_ne.2 (hnsp t0 (List.mem_cons_self _ _))
  have hlow : (strL "complete " ++ (t0 :: ttl)).map Char.toLower =
      strL "complete " ++ (t0 :: ttl).map Char.toLower := by
    simp only [List.map_append]
    rfl
  have hW : ∀ c ∈ List.map Char.toLower ttl, c ≠ ' ' :=
    mapLower_no_space (fun c hc => hnsp c (List.mem_cons_of_mem _ hc))
  have g1 : ∀ p : Str, ' ' ∈ p → startsW p (List.map Char.toLower ttl) = false :=
    fun p hp => startsW_space_free hp hW
  have g2 : ∀ p : Str, ' ' ∈ p → containsSub p (List.map Char.toLower ttl) = false :=
    fun p hp => containsSub_space_free hp hW
  have hsplit : splitSp (strL "complete " ++ (t0 :: ttl)) =
      [strL "complete", t0 :: ttl] := by
    rw [show strL "complete " ++ (t0 :: ttl) =
        strL "complete" ++ ' ' :: (t0 :: ttl) from rfl]
    rw [splitSp_sep _ _ (by decide), splitSp_token _ hnsp]
  have hmcr : matchCompleteReminder (strL "complete " ++ (t0 :: ttl)) = none := by
    unfold matchCompleteReminder
    rw [hsplit]
  have hmct : matchCompleteRaw (strL "complete " ++ (t0 :: ttl)) =
      some (t0 :: ttl) := by
    unfold matchCompleteRaw
    dsimp only
    rw [hstrip,
        show (strL "complete " ++ (t0 :: ttl)).take 8 = strL "complete" from rfl,
        show lowEq (strL "complete") (strL "complete") = true from rfl,
        show (strL "complete " ++ (t0 :: ttl)).drop 8 = ' ' :: (t0 :: ttl) from rfl]
    simp only [if_true]
    rw [show pyWs ' ' = true from rfl]
    simp only [if_true]
    rw [show List.dropWhile pyWs (' ' :: t0 :: ttl) = List.dropWhile pyWs (t0 :: ttl)
          from by rw [List.dropWhile_cons, if_pos (show pyWs ' ' = true from rfl)],
        dropWhile_eq_self_of_head (fun c hc => by
          rw [show (t0 :: ttl).head? = some t0 from rfl] at hc
          injection hc with hc2
          subst hc2
          exact hws t0 (List.mem_cons_self _ _))]
    rw [show ((t0 :: ttl).all fun d => !pyWs d) = true from
      List.all_eq_true.2 (fun c hc => by rw [hws c hc]; rfl)]
    simp
  unfold handle_message
  rw [hnorm]
  rw [hmAddTask_not (by rw [hlow]; simp [startsW, strL])]
  rw [hmRemind_not (by rw [hlow]; simp [startsW, strL])]
  rw [hmListReminders_not (by
    rw [hlow]
    simp [containsSub, startsW, strL, g1, g2])]
  rw [hmCompleteReminder_not hmcr]
  rw [hmCheckIn_not (by rw [hlow]; simp [startsW, strL])]
  rw [hmDashboard_not (by rw [hlow]; simp [dashTriggers, strL, apos])]
  rw [hmListTasks_not (by
    rw [hlow]
    simp [containsSub, startsW, strL, g1, g2])]
  rw [hmCompleteTask_hit hmct hlowt]

/-- C3 counterexample: the token REMINDER differs from the literal word
reminder, yet complete REMINDER is NOT classified as a task completion — the
source excludes the token case-insensitively, so the message falls through to
the generative fallback and an existing task with id REMINDER stays open. -/
theorem C3_counterexample :
    ((handle_message (strL "complete REMINDER") "s" stCE3 0).2.tasks "s").map
      (fun t => (t.id, t.completed)) = [(strL "REMINDER", false)] ∧
    (handle_message (strL "complete REMINDER") "s" stCE3 0).1 =
      .ok (strL "[MOCK LLM] (session=s) Replying to: complete REMINDER") ∧
    strL "REMINDER" ≠ strL "reminder" :=
  ⟨rfl, rfl, by decide⟩

/-- C3 amended: for every token t, complete reminder t is routed to reminder
completion and never to task completion (tasks untouched); and for every
token t whose LOWERCASE form is not the word reminder (the source's exclusion
is case-insensitive), complete t is routed to task completion and never to
reminder completion (reminders untouched). -/
theorem C3_complete_mutual_exclusion (t : Str) (sid : String) (st : Store)
    (now : Int) (ht : isTokenB t = true) :
    (handle_message (strL "complete reminder " ++ t) sid st now =
        (.ok (if (complete_reminder_tool sid t st).1 then strL "Reminder completed."
              else strL "Reminder not found."),
         (complete_reminder_tool sid t st).2) ∧
      ((complete_reminder_tool sid t st).2).tasks = st.tasks) ∧
    (lowEq t (strL "reminder") = false →
      handle_message (strL "complete " ++ t) sid st now =
        (.ok (if (complete_task_tool sid t st).1 then strL "Task completed."
              else strL "Task not found."),
         (complete_task_tool sid t st).2) ∧
      ((complete_task_tool sid t st).2).reminders = st.reminders) :=
  ⟨⟨C3_reminder_routing_aux t sid st now ht, complete_reminder_tool_tasks sid t st⟩,
   fun h => ⟨C3_task_routing_aux t sid st now ht h,
             complete_task_tool_reminders sid t st⟩⟩

/-- C3 witness: on a store with reminder r1 and task t1, complete reminder r1
completes the reminder (tasks untouched) and complete t1 completes the task
(reminders untouched). -/
theorem C3_complete_mutual_exclusion_witness :
    handle_message (strL "complete reminder " ++ strL "r1") "s" stW3 5 =
      (.ok (if (complete_reminder_tool "s" (strL "r1") stW3).1
            then strL "Reminder completed." else strL "Reminder not found."),
       (complete_reminder_tool "s" (strL "r1") stW3).2) ∧
    handle_message (strL "complete " ++ strL "t1") "s" stW3 5 =
      (.ok (if (complete_task_tool "s" (strL "t1") stW3).1
            then strL "Task completed." else strL "Task not found."),
       (complete_task_tool "s" (strL "t1") stW3).2) :=
  ⟨((C3_complete_mutual_exclusion (strL "r1") "s" stW3 5 (by decide)).1).1,
   ((C3_complete_mutual_exclusion (strL "t1") "s" stW3 5 (by decide)).2 (by decide)).1⟩

end AgentMVP
